import Mathlib

/-!
# fission-workflows: task-run aggregate, status helpers and the mock function runtime

A shallow embedding of

* `pkg/api/aggregates/task.go`   (the task-run entity and its `ApplyEvent`),
* `pkg/types/extensions.go`      (status predicates, `ToTaskStatus`, task specs, workflows),
* `pkg/fnenv/mock/mock.go`       (the mocked function runtime),
* `pkg/fes/util.go`              (aggregates and events),

followed by the properties established for them.

Conventions of the embedding.

* A Go pointer that may be nil is an `Option`; dereferencing `none` is a panic.
* A Go map is a `GoMap`: either the nil map or an allocated list of entries.
* A Go method that mutates its receiver is a function from the receiver state to an
  `Outcome`, which carries the receiver state left behind and either the returned
  values or the fact that the call panicked.
* Readings of the wall clock (`ptypes.TimestampNow()`) and fresh identifiers
  (`util.UID()`) are explicit arguments of the operation that performs them.
* Log statements have no effect on the state and are not represented.
-/

/-! ## Go runtime notions -/

/-- Result of a Go call on a receiver of type σ returning values of type α. `returned s v`:
the call returned `v` and left the receiver in state `s`. `panicked s`: the call panicked,
the receiver being in state `s` at that moment. -/
inductive Outcome (σ α : Type) where
  | returned (state : σ) (value : α)
  | panicked (state : σ)

namespace Outcome

/-- The receiver state a call leaves behind, whether it returned or panicked. -/
def state {σ α : Type} : Outcome σ α → σ
  | returned s _ => s
  | panicked s => s

/-- The returned values, when the call returned. -/
def value {σ α : Type} : Outcome σ α → Option α
  | returned _ v => some v
  | panicked _ => none

/-- The outcome with a function applied to the receiver state. -/
def mapState {σ α : Type} (f : σ → σ) : Outcome σ α → Outcome σ α
  | returned s v => returned (f s) v
  | panicked s => panicked (f s)

end Outcome

/-- A Go `map[string]V`. The nil map can be read (every key is missing) but not written. -/
inductive GoMap (V : Type) where
  | nil
  | alloc (entries : List (String × V))
deriving DecidableEq, Repr

namespace GoMap

/-- First entry stored under a key in an entry list. -/
def find {V : Type} (k : String) : List (String × V) → Option V
  | [] => none
  | (k1, v) :: rest => if k1 = k then some v else find k rest

/-- Entry list after `m[k] = v`: the entry under `k` is replaced, or a new one is added. -/
def store {V : Type} (k : String) (v : V) : List (String × V) → List (String × V)
  | [] => [(k, v)]
  | (k1, v1) :: rest => if k1 = k then (k, v) :: rest else (k1, v1) :: store k v rest

/-- The Go lookup `v, ok := m[k]`: `some v` when `ok`, `none` otherwise. -/
def get {V : Type} (m : GoMap V) (k : String) : Option V :=
  match m with
  | nil => none
  | alloc l => find k l

/-- The Go assignment `m[k] = v`; `none` stands for the panic on a nil map. -/
def set {V : Type} (m : GoMap V) (k : String) (v : V) : Option (GoMap V) :=
  match m with
  | nil => none
  | alloc l => some (alloc (store k v l))

/-- A write through the pointer stored under `k` (as in `m[k].Status = ...`): the map keeps
its keys and the object under `k` becomes `v`. It is used only after a lookup of `k`
succeeded, so the map is allocated. -/
def poke {V : Type} (m : GoMap V) (k : String) (v : V) : GoMap V :=
  match m with
  | nil => nil
  | alloc l => alloc (store k v l)

end GoMap

/-! ## Package `types` -/

namespace types

/-- The protobuf timestamp message. -/
structure Timestamp where
  Seconds : Int
  Nanos : Int
deriving DecidableEq, Repr

/-- The typed value message: a type tag, the serialized bytes and labels. -/
structure TypedValue where
  Type_ : String
  Value : List UInt8
  Labels : GoMap String
deriving DecidableEq, Repr

/-- The error message carried by a failed status. -/
structure Error where
  Message : String
deriving DecidableEq, Repr

/-- Reference to a function; `ID` is the field the sources read. -/
structure FnRef where
  ID : String
deriving DecidableEq, Repr

/-- Object metadata: identifier and creation stamp. -/
structure ObjectMetadata where
  Id : String
  CreatedAt : Option Timestamp
deriving DecidableEq, Repr

/-- Specification of one task run, with the fields the sources read. -/
structure TaskRunSpec where
  FnRef : Option FnRef
  TaskId : String
  Inputs : GoMap (Option TypedValue)
deriving DecidableEq, Repr

/-- The enum `TaskRunStatus_Status`; `UNKNOWN` is its zero value. -/
inductive TaskRunStatus_Status where
  | UNKNOWN
  | SCHEDULED
  | IN_PROGRESS
  | SUCCEEDED
  | FAILED
  | ABORTED
  | SKIPPED
deriving DecidableEq, Repr

/-- Status of a task run. -/
structure TaskRunStatus where
  Status : TaskRunStatus_Status
  UpdatedAt : Option Timestamp
  Output : Option TypedValue
  Error : Option Error
deriving DecidableEq, Repr

/-- The Go zero value `TaskRunStatus{}`. -/
def TaskRunStatus.zero : TaskRunStatus :=
  { Status := TaskRunStatus_Status.UNKNOWN, UpdatedAt := none, Output := none, Error := none }

/-- The task-run projection. -/
structure TaskRun where
  Metadata : Option ObjectMetadata
  Spec : Option TaskRunSpec
  Status : Option TaskRunStatus
deriving DecidableEq, Repr

/-- The enum `WorkflowInvocationStatus_Status`; `UNKNOWN` is its zero value. -/
inductive WorkflowInvocationStatus_Status where
  | UNKNOWN
  | SCHEDULED
  | IN_PROGRESS
  | SUCCEEDED
  | FAILED
  | ABORTED
deriving DecidableEq, Repr

/-- Status of a workflow invocation. -/
structure WorkflowInvocationStatus where
  Status : WorkflowInvocationStatus_Status
  UpdatedAt : Option Timestamp
  Tasks : GoMap (Option TaskRun)
  Output : Option TypedValue
  Error : Option Error
deriving DecidableEq, Repr

/-- Modelled from the spec: `types.NewObjectMetadata` lies outside the listed sources.
The data model gives metadata the two fields `Id` and `CreatedAt`, and scenario A fixes
`Metadata.Id` to the id handed in. The helper is handed nothing but the id, so the creation
stamp it writes is not determined by its caller; it is the argument `createdAt`. -/
def NewObjectMetadata (createdAt : Option Timestamp) (id : String) : ObjectMetadata :=
  { Id := id, CreatedAt := createdAt }

/-- The variable `invocationFinalStates`. -/
def invocationFinalStates : List WorkflowInvocationStatus_Status :=
  [ WorkflowInvocationStatus_Status.ABORTED,
    WorkflowInvocationStatus_Status.SUCCEEDED,
    WorkflowInvocationStatus_Status.FAILED ]

/-- The variable `taskFinalStates`. -/
def taskFinalStates : List TaskRunStatus_Status :=
  [ TaskRunStatus_Status.FAILED,
    TaskRunStatus_Status.ABORTED,
    TaskRunStatus_Status.SKIPPED,
    TaskRunStatus_Status.SUCCEEDED ]

/-- The loop shared by both `Finished` methods: return true at the first element of the
list equal to the status, false when the list is exhausted. -/
def rangeHas {α : Type} [DecidableEq α] : List α → α → Bool
  | [], _ => false
  | event :: rest, s => if event = s then true else rangeHas rest s

/-- The map literal `statusMapping` of `ToTaskStatus`. -/
def statusMapping : List (WorkflowInvocationStatus_Status × TaskRunStatus_Status) :=
  [ (WorkflowInvocationStatus_Status.UNKNOWN, TaskRunStatus_Status.UNKNOWN),
    (WorkflowInvocationStatus_Status.SCHEDULED, TaskRunStatus_Status.SCHEDULED),
    (WorkflowInvocationStatus_Status.IN_PROGRESS, TaskRunStatus_Status.IN_PROGRESS),
    (WorkflowInvocationStatus_Status.SUCCEEDED, TaskRunStatus_Status.SUCCEEDED),
    (WorkflowInvocationStatus_Status.FAILED, TaskRunStatus_Status.FAILED),
    (WorkflowInvocationStatus_Status.ABORTED, TaskRunStatus_Status.ABORTED) ]

/-- Indexing a Go map of statuses: the stored value, or the zero value for a missing key. -/
def statusIndex : List (WorkflowInvocationStatus_Status × TaskRunStatus_Status) →
    WorkflowInvocationStatus_Status → TaskRunStatus_Status
  | [], _ => TaskRunStatus_Status.UNKNOWN
  | (k, v) :: rest, s => if k = s then v else statusIndex rest s

/-- The method `WorkflowInvocationStatus.ToTaskStatus` on a non-nil receiver. -/
def WorkflowInvocationStatus.ToTaskStatus (m : WorkflowInvocationStatus) : TaskRunStatus :=
  { Status := statusIndex statusMapping m.Status,
    Error := m.Error,
    UpdatedAt := m.UpdatedAt,
    Output := m.Output }

/-- The method `WorkflowInvocationStatus.Finished`. -/
def WorkflowInvocationStatus.Finished (m : WorkflowInvocationStatus) : Bool :=
  rangeHas invocationFinalStates m.Status

/-- The method `WorkflowInvocationStatus.Successful`. -/
def WorkflowInvocationStatus.Successful (m : WorkflowInvocationStatus) : Bool :=
  decide (m.Status = WorkflowInvocationStatus_Status.SUCCEEDED)

/-- The method `TaskRunStatus.Finished`. -/
def TaskRunStatus.Finished (ti : TaskRunStatus) : Bool :=
  rangeHas taskFinalStates ti.Status

/-- The method `TaskRunStatus.Successful`. -/
def TaskRunStatus.Successful (ti : TaskRunStatus) : Bool :=
  decide (ti.Status = TaskRunStatus_Status.SUCCEEDED)

end types

/-! ## Package `events` and the event envelope of package `fes` -/

namespace events

/-- Payload of a started event; `GetSpec` reads `Spec`. -/
structure TaskStarted where
  Spec : Option types.TaskRunSpec
deriving DecidableEq, Repr

/-- Payload of a succeeded event; `GetResult` reads `Result`. -/
structure TaskSucceeded where
  Result : Option types.TaskRunStatus
deriving DecidableEq, Repr

/-- Payload of a failed event; `GetError` reads `Error`. -/
structure TaskFailed where
  Error : Option types.Error
deriving DecidableEq, Repr

/-- Payload of a skipped event. -/
structure TaskSkipped where
deriving DecidableEq, Repr

end events

namespace fes

/-- Identity of an event stream. -/
structure Aggregate where
  Id : String
  Type_ : String
deriving DecidableEq, Repr

/-- The serialized payload of an event. -/
structure Any where
  TypeUrl : String
  Value : List UInt8
deriving DecidableEq, Repr

/-- The event envelope, with the fields `NewEvent` fills. -/
structure Event where
  Aggregate : Option Aggregate
  Type_ : String
  Data : Option Any
  Timestamp : Option types.Timestamp
deriving DecidableEq, Repr

/-- What `UnmarshalEventData` hands back on success: a value whose dynamic type the type
switch of `ApplyEvent` inspects. `Other` stands for every dynamic type the switch does not
list, tagged with its type name. -/
inductive Message where
  | TaskStarted (m : events.TaskStarted)
  | TaskSucceeded (m : events.TaskSucceeded)
  | TaskFailed (m : events.TaskFailed)
  | TaskSkipped (m : events.TaskSkipped)
  | Other (typeName : String)
deriving DecidableEq, Repr

/-- The entity base: the aggregate the entity belongs to. -/
structure BaseEntity where
  aggregate : Aggregate
deriving DecidableEq, Repr

end fes

/-! ## Package `aggregates`: the task-run entity -/

namespace aggregates

/-- The constant `TypeTaskRun`. -/
def TypeTaskRun : String := "task"

/-- The entity `aggregates.TaskRun`: the base entity and the embedded pointer to the
projection `types.TaskRun`, here the field `TaskRun_`. -/
structure TaskRun where
  BaseEntity : fes.BaseEntity
  TaskRun_ : Option types.TaskRun
deriving DecidableEq, Repr

/-- The function `NewTaskRunAggregate`. -/
def NewTaskRunAggregate (id : String) : fes.Aggregate :=
  { Id := id, Type_ := TypeTaskRun }

/-- The function `NewTaskRun`. -/
def NewTaskRun (id : String) (fi : Option types.TaskRun) : TaskRun :=
  { BaseEntity := { aggregate := NewTaskRunAggregate id }, TaskRun_ := fi }

/-- The promoted field `ti.Status`: the status pointer of the embedded projection. -/
def TaskRun.Status (ti : TaskRun) : Option types.TaskRunStatus :=
  match ti.TaskRun_ with
  | none => none
  | some tr => tr.Status

/-- The method `TaskRun.ApplyEvent` of an entity built by `NewTaskRun`.
`UnmarshalEventData` is the decoder of package `fes`, which is outside the listed sources
and is taken as given; `createdAt` is the creation stamp `types.NewObjectMetadata` writes.
The returned value is the Go `error` (`none` for nil). A panic is the dereference of a nil
pointer: the spec of a Started payload, the result of a Succeeded payload, the embedded
projection or its status. -/
def TaskRun.ApplyEvent (UnmarshalEventData : fes.Event → Except String fes.Message)
    (createdAt : Option types.Timestamp) (ti : TaskRun) (event : fes.Event) :
    Outcome TaskRun (Option String) :=
  match UnmarshalEventData event with
  | Except.error err => Outcome.returned ti (some err)
  | Except.ok eventData =>
    match eventData with
    | fes.Message.TaskStarted m =>
      match m.Spec with
      | none => Outcome.panicked ti
      | some spec =>
        Outcome.returned
          { ti with
            TaskRun_ := some
              { Metadata := some (types.NewObjectMetadata createdAt spec.TaskId),
                Spec := some spec,
                Status := some
                  { Status := types.TaskRunStatus_Status.IN_PROGRESS,
                    UpdatedAt := event.Timestamp,
                    Output := none,
                    Error := none } } }
          none
    | fes.Message.TaskSucceeded m =>
      match ti.TaskRun_ with
      | none => Outcome.panicked ti
      | some tr =>
        match tr.Status with
        | none => Outcome.panicked ti
        | some st =>
          match m.Result with
          | none => Outcome.panicked ti
          | some result =>
            Outcome.returned
              { ti with
                TaskRun_ := some
                  { tr with
                    Status := some
                      { st with
                        Output := result.Output,
                        Status := types.TaskRunStatus_Status.SUCCEEDED,
                        UpdatedAt := event.Timestamp } } }
              none
    | fes.Message.TaskFailed m =>
      match ti.TaskRun_ with
      | none => Outcome.panicked ti
      | some tr =>
        let st :=
          match tr.Status with
          | none => types.TaskRunStatus.zero
          | some st => st
        Outcome.returned
          { ti with
            TaskRun_ := some
              { tr with
                Status := some
                  { st with
                    Error := m.Error,
                    UpdatedAt := event.Timestamp,
                    Status := types.TaskRunStatus_Status.FAILED } } }
          none
    | fes.Message.TaskSkipped _ =>
      match ti.TaskRun_ with
      | none => Outcome.panicked ti
      | some tr =>
        match tr.Status with
        | none => Outcome.panicked ti
        | some st =>
          Outcome.returned
            { ti with
              TaskRun_ := some
                { tr with
                  Status := some
                    { st with
                      Status := types.TaskRunStatus_Status.SKIPPED,
                      UpdatedAt := event.Timestamp } } }
            none
    | fes.Message.Other _ => Outcome.returned ti none

/-- Whether the entity holds a projection whose status is final. -/
def TaskRun.isFinal (ti : TaskRun) : Bool :=
  match ti.Status with
  | none => false
  | some st => st.Finished

/-- Modelled from the spec: the replay driver of package `fes` lies outside the listed
sources. Per the spec, replay applies each event of the sequence in order, starting from
the given entity; here it stops at the first application that returns an error or panics.
Each event is paired with the creation stamp the metadata helper writes while that event
is applied. -/
def TaskRun.replay (UnmarshalEventData : fes.Event → Except String fes.Message) :
    TaskRun → List (Option types.Timestamp × fes.Event) → Outcome TaskRun (Option String)
  | ti, [] => Outcome.returned ti none
  | ti, (createdAt, event) :: rest =>
    match TaskRun.ApplyEvent UnmarshalEventData createdAt ti event with
    | Outcome.returned ti1 none => TaskRun.replay UnmarshalEventData ti1 rest
    | Outcome.returned ti1 (some err) => Outcome.returned ti1 (some err)
    | Outcome.panicked ti1 => Outcome.panicked ti1

/-- The entity with the creation stamp of its metadata blanked out. -/
def TaskRun.withoutCreatedAt (ti : TaskRun) : TaskRun :=
  { ti with
    TaskRun_ := ti.TaskRun_.map fun tr =>
      { tr with Metadata := tr.Metadata.map fun md => { md with CreatedAt := none } } }

end aggregates

/-! ## Package `mock`: the mocked function runtime -/

namespace mock

/-- The type `Func`: a mocked function from the spec pointer to a value and a Go `error`. -/
abbrev Func := Option types.TaskRunSpec → Option types.TypedValue × Option String

/-- The struct `Runtime`. A function value stored in `Functions` may be nil. -/
structure Runtime where
  Functions : GoMap (Option Func)
  AsyncResults : GoMap (Option types.TaskRun)
  ManualExecution : Bool

/-- The function `NewRuntime`. -/
def NewRuntime : Runtime :=
  { Functions := GoMap.alloc [], AsyncResults := GoMap.alloc [], ManualExecution := false }

/-- The error of an unregistered function name. -/
def unknownFunction (fnName : String) : String :=
  "could not invoke unknown function '" ++ fnName ++ "'"

/-- The error of an unrecorded invocation id. -/
def unknownInvocation (fnInvocationID : String) : String :=
  "could not invoke unknown invocation '" ++ fnInvocationID ++ "'"

/-- The method `Runtime.MockComplete`; `now` is its reading of the clock. -/
def Runtime.MockComplete (now : types.Timestamp) (mk : Runtime) (fnInvocationID : String) :
    Outcome Runtime (Option String) :=
  match mk.AsyncResults.get fnInvocationID with
  | none => Outcome.returned mk (some (unknownInvocation fnInvocationID))
  | some none => Outcome.panicked mk
  | some (some invocation) =>
    match invocation.Spec with
    | none => Outcome.panicked mk
    | some spec =>
      match spec.FnRef with
      | none => Outcome.panicked mk
      | some ref =>
        match mk.Functions.get ref.ID with
        | none => Outcome.returned mk (some (unknownFunction ref.ID))
        | some none => Outcome.panicked mk
        | some (some fn) =>
          match fn invocation.Spec with
          | (_, some _) =>
            Outcome.returned
              { mk with
                AsyncResults := mk.AsyncResults.poke fnInvocationID (some
                  { invocation with
                    Status := some
                      { Output := none,
                        UpdatedAt := some now,
                        Status := types.TaskRunStatus_Status.FAILED,
                        Error := none } }) }
              none
          | (result, none) =>
            Outcome.returned
              { mk with
                AsyncResults := mk.AsyncResults.poke fnInvocationID (some
                  { invocation with
                    Status := some
                      { Output := result,
                        UpdatedAt := some now,
                        Status := types.TaskRunStatus_Status.SUCCEEDED,
                        Error := none } }) }
              none

/-- The method `Runtime.InvokeAsync`. `uid` is the identifier `util.UID()` hands out;
`tCreated` and `tUpdated` are the clock readings stored in the new record and `tCompleted`
the one `MockComplete` takes. The returned pair is the invocation id and the Go `error`. -/
def Runtime.InvokeAsync (uid : String) (tCreated tUpdated tCompleted : types.Timestamp)
    (mk : Runtime) (spec : Option types.TaskRunSpec) : Outcome Runtime (String × Option String) :=
  match spec with
  | none => Outcome.panicked mk
  | some sp =>
    match sp.FnRef with
    | none => Outcome.panicked mk
    | some ref =>
      match mk.Functions.get ref.ID with
      | none => Outcome.returned mk ("", some (unknownFunction ref.ID))
      | some _ =>
        match mk.AsyncResults.set uid (some
            { Metadata := some { Id := uid, CreatedAt := some tCreated },
              Spec := spec,
              Status := some
                { Status := types.TaskRunStatus_Status.IN_PROGRESS,
                  UpdatedAt := some tUpdated,
                  Output := none,
                  Error := none } }) with
        | none => Outcome.panicked mk
        | some results =>
          if mk.ManualExecution then
            Outcome.returned { mk with AsyncResults := results } (uid, none)
          else
            match Runtime.MockComplete tCompleted { mk with AsyncResults := results } uid with
            | Outcome.returned mk1 none => Outcome.returned mk1 (uid, none)
            | Outcome.returned mk1 (some _) => Outcome.panicked mk1
            | Outcome.panicked mk1 => Outcome.panicked mk1

/-- The method `Runtime.Cancel`; `now` is its reading of the clock. -/
def Runtime.Cancel (now : types.Timestamp) (mk : Runtime) (fnInvocationID : String) :
    Outcome Runtime (Option String) :=
  match mk.AsyncResults.get fnInvocationID with
  | none => Outcome.returned mk (some (unknownInvocation fnInvocationID))
  | some none => Outcome.panicked mk
  | some (some invocation) =>
    Outcome.returned
      { mk with
        AsyncResults := mk.AsyncResults.poke fnInvocationID (some
          { invocation with
            Status := some
              { Output := none,
                UpdatedAt := some now,
                Status := types.TaskRunStatus_Status.ABORTED,
                Error := none } }) }
      none

/-- The method `Runtime.Status`: the status pointer of the record and the Go `error`. -/
def Runtime.Status (mk : Runtime) (fnInvocationID : String) :
    Outcome Runtime (Option types.TaskRunStatus × Option String) :=
  match mk.AsyncResults.get fnInvocationID with
  | none => Outcome.returned mk (none, some (unknownInvocation fnInvocationID))
  | some none => Outcome.panicked mk
  | some (some invocation) => Outcome.returned mk (invocation.Status, none)

end mock

/-! ## Package `types`: task specs and workflows -/

namespace GoMap

/-- The entries a map holds according to an entry list: one per key, the first one listed. -/
def items {V : Type} : List (String × V) → List (String × V)
  | [] => []
  | (k, v) :: rest => (k, v) :: (items rest).filter (fun e => decide (e.1 ≠ k))

/-- The entries of a map, one per key. A `range` loop visits them in an order of its own
choosing, that is, in some permutation of this list. -/
def entries {V : Type} (m : GoMap V) : List (String × V) :=
  match m with
  | nil => []
  | alloc l => items l

end GoMap

namespace types

/-- The enum of dependency kinds. The sources name `TaskDependencyParameters_DYNAMIC_OUTPUT`
only; `OTHER` stands for every other value of the enum, tagged with its number. -/
inductive TaskDependencyParameters_DependencyType where
  | DYNAMIC_OUTPUT
  | OTHER (code : Nat)
deriving DecidableEq, Repr

/-- The dependency parameters stored per required task; `Type` is the field read. -/
structure TaskDependencyParameters where
  Type_ : TaskDependencyParameters_DependencyType
deriving DecidableEq, Repr

/-- The static spec of a task: function reference, inputs, dependencies and await count. -/
structure TaskSpec where
  FunctionRef : String
  Inputs : GoMap (Option TypedValue)
  Requires : GoMap (Option TaskDependencyParameters)
  Await : Int
deriving DecidableEq, Repr

/-- The body of the loop of `TaskSpec.Parent` run over the entries in the order given:
`none` is the panic of `params.Type` on a nil `params`, `some (parent, present)` the values
the method returns. -/
def parentLoop : List (String × Option TaskDependencyParameters) → Option (String × Bool)
  | [] => some ("", false)
  | (id, params) :: rest =>
    match params with
    | none => none
    | some p =>
      if p.Type_ = TaskDependencyParameters_DependencyType.DYNAMIC_OUTPUT then some (id, true)
      else parentLoop rest

/-- The method `TaskSpec.Parent` on a non-nil receiver. `order` is the order in which the
`range` loop visits `m.Requires`; it is a permutation of `m.Requires.entries`. -/
def TaskSpec.Parent (order : List (String × Option TaskDependencyParameters)) (m : TaskSpec) :
    Outcome TaskSpec (String × Bool) :=
  match parentLoop order with
  | none => Outcome.panicked m
  | some r => Outcome.returned m r

/-- The method `TaskSpec.Require` on a non-nil receiver: the receiver after the call, which
is also the pointer returned. `opts` is the variadic argument. -/
def TaskSpec.Require (m : TaskSpec) (taskID : String)
    (opts : List (Option TaskDependencyParameters)) : TaskSpec :=
  let requires : List (String × Option TaskDependencyParameters) :=
    match m.Requires with
    | GoMap.nil => []
    | GoMap.alloc l => l
  let params : Option TaskDependencyParameters :=
    match opts with
    | [] => none
    | p :: _ => p
  { m with Requires := GoMap.alloc (GoMap.store taskID params requires) }

/-- The copy the library call `proto.Clone` makes of a map field. A map without entries,
nil or allocated, is not copied: the field of the clone stays nil. A map with entries is
copied entry by entry, each value through `cloneValue`. -/
def cloneMap {V : Type} (cloneValue : V → V) : GoMap V → GoMap V
  | GoMap.nil => GoMap.nil
  | GoMap.alloc [] => GoMap.nil
  | GoMap.alloc (e :: l) => GoMap.alloc ((e :: l).map (fun kv => (kv.1, cloneValue kv.2)))

/-- The copy `proto.Clone` makes of a map value that is a pointer to a message: a present
message is copied by `clone`; for a nil pointer the releases of the library differ (the nil
pointer again, or a new empty message), so what the clone holds there is the argument
`nilEntry`. -/
def cloneEntry {V : Type} (nilEntry : Option V) (clone : V → V) : Option V → Option V
  | none => nilEntry
  | some v => some (clone v)

/-- The copy `proto.Clone` makes of a typed value: same type tag and bytes, labels copied
as a map field. -/
def cloneTypedValue (tv : TypedValue) : TypedValue :=
  { tv with Labels := cloneMap id tv.Labels }

/-- The library call `proto.Clone` on a task spec: a new message into which every field of
the original is merged. Scalars are copied; the map fields are copied by `cloneMap`, so an
allocated map without entries comes back nil. `nilInput` and `nilParams` are what the
clone holds for an entry of `Inputs`, of `Requires`, whose pointer is nil. -/
def cloneTaskSpec (nilInput : Option TypedValue) (nilParams : Option TaskDependencyParameters)
    (m : TaskSpec) : TaskSpec :=
  { FunctionRef := m.FunctionRef,
    Inputs := cloneMap (cloneEntry nilInput cloneTypedValue) m.Inputs,
    Requires := cloneMap (cloneEntry nilParams id) m.Requires,
    Await := m.Await }

/-- The method `TaskSpec.Overlay` on a non-nil receiver; `nilInput` and `nilParams` are
handed to `proto.Clone`. The state is the pair of the receiver and the overlay as the call
leaves them; a nil overlay panics. -/
def TaskSpec.Overlay (nilInput : Option TypedValue)
    (nilParams : Option TaskDependencyParameters) (m : TaskSpec) (overlay : Option TaskSpec) :
    Outcome (TaskSpec × Option TaskSpec) TaskSpec :=
  match overlay with
  | none => Outcome.panicked (m, overlay)
  | some o =>
    let nt := cloneTaskSpec nilInput nilParams m
    Outcome.returned (m, overlay) { nt with Await := o.Await, Requires := o.Requires }

/-- The status of a task of a workflow definition; `UpdatedAt` is the field the sources
set. -/
structure TaskStatus where
  UpdatedAt : Option Timestamp
deriving DecidableEq, Repr

/-- A task of a workflow definition as `Workflow.Task` composes it. -/
structure Task where
  Metadata : Option ObjectMetadata
  Spec : Option TaskSpec
  Status : Option TaskStatus
deriving DecidableEq, Repr

/-- The spec of a workflow definition. -/
structure WorkflowSpec where
  Tasks : GoMap (Option TaskSpec)
  OutputTask : String
  Description : String
deriving DecidableEq, Repr

/-- The enum of workflow states. The sources name READY and FAILED; `OTHER` stands for
every other value. -/
inductive WorkflowStatus_Status where
  | READY
  | FAILED
  | OTHER (code : Nat)
deriving DecidableEq, Repr

/-- The status of a workflow definition. -/
structure WorkflowStatus where
  Status : WorkflowStatus_Status
  Tasks : GoMap (Option TaskStatus)
deriving DecidableEq, Repr

/-- A workflow definition. -/
structure Workflow where
  Metadata : Option ObjectMetadata
  Spec : Option WorkflowSpec
  Status : Option WorkflowStatus
deriving DecidableEq, Repr

/-- The method `Workflow.Task` on a non-nil receiver; `now` is the clock reading taken when
a default status is made. The variable `ok` is first set by the lookup in `Spec.Tasks` and
is overwritten by the lookup in `Status.Tasks` only when that map is not nil. The returned
pair is the task pointer and the found flag. -/
def Workflow.Task (now : Timestamp) (m : Workflow) (id : String) :
    Outcome Workflow (Option Task × Bool) :=
  match m.Spec with
  | none => Outcome.panicked m
  | some wspec =>
    match wspec.Tasks.get id with
    | none => Outcome.returned m (none, false)
    | some spec =>
      match m.Status with
      | none => Outcome.panicked m
      | some wstatus =>
        let found : Option TaskStatus × Bool :=
          match wstatus.Tasks with
          | GoMap.nil => (none, true)
          | GoMap.alloc l =>
            match GoMap.find id l with
            | none => (none, false)
            | some status => (status, true)
        let status : Option TaskStatus :=
          if found.2 then found.1 else some { UpdatedAt := some now }
        match m.Metadata with
        | none => Outcome.panicked m
        | some md =>
          Outcome.returned m
            (some
              { Metadata := some { Id := id, CreatedAt := md.CreatedAt },
                Spec := spec,
                Status := status },
             true)

end types

/-! ## Package `fes`: aggregates and events -/

namespace fes

/-- The function `validateAggregate`: the Go `error` returned (`none` for nil). `len` counts
the bytes of the string. -/
def validateAggregate (aggregate : Aggregate) : Option String :=
  if aggregate.Id.utf8ByteSize = 0 then some "aggregate does not contain id"
  else if aggregate.Type_.utf8ByteSize = 0 then some "aggregate does not contain type"
  else none

/-- The function `NewAggregate`. -/
def NewAggregate (entityType : String) (entityID : String) : Aggregate :=
  { Id := entityID, Type_ := entityType }

/-- The function `NewEvent`. The payload `msg` is a value of the interface `proto.Message`:
`none` is the nil interface, `some p` a message `p` of some type `M`, whose dynamic type
name is `typeName p` and whose serialization by the library call `ptypes.MarshalAny` is
`MarshalAny p`. `now` is the clock reading. The fields of the event literal are evaluated
in order; the last one, `reflect.Indirect(reflect.ValueOf(msg)).Type().Name()`, takes the
type of the zero `reflect.Value` when `msg` is nil, which panics. The returned pair is the
event pointer and the Go `error`. -/
def NewEvent {M : Type} (typeName : M → String) (MarshalAny : M → Except String Any)
    (now : types.Timestamp) (aggregate : Aggregate) (msg : Option M) :
    Outcome Unit (Option Event × Option String) :=
  match msg with
  | none => Outcome.panicked ()
  | some p =>
    match MarshalAny p with
    | Except.error err => Outcome.returned () (none, some err)
    | Except.ok d =>
      Outcome.returned ()
        (some
          { Aggregate := some aggregate,
            Data := some d,
            Timestamp := some now,
            Type_ := typeName p },
         none)

end fes

/-! ## Package `mock`: the remaining operations -/

namespace mock

/-- The method `Runtime.Invoke`. `uid`, `tCreated`, `tUpdated`, `tCompleted` are handed to
`InvokeAsync`; `tAgain` is the clock reading of the second `MockComplete`. The returned
pair is the status pointer and the Go `error`. -/
def Runtime.Invoke (uid : String) (tCreated tUpdated tCompleted tAgain : types.Timestamp)
    (mk : Runtime) (spec : Option types.TaskRunSpec) :
    Outcome Runtime (Option types.TaskRunStatus × Option String) :=
  match Runtime.InvokeAsync uid tCreated tUpdated tCompleted mk spec with
  | Outcome.panicked mk1 => Outcome.panicked mk1
  | Outcome.returned mk1 (_, some err) => Outcome.returned mk1 (none, some err)
  | Outcome.returned mk1 (invocationID, none) =>
    match Runtime.MockComplete tAgain mk1 invocationID with
    | Outcome.panicked mk2 => Outcome.panicked mk2
    | Outcome.returned mk2 (some err) => Outcome.returned mk2 (none, some err)
    | Outcome.returned mk2 none => Runtime.Status mk2 invocationID

/-- The method `Runtime.Notify`. -/
def Runtime.Notify (mk : Runtime) (_taskID : String) (_fn : types.FnRef)
    (_expectedAt : types.Timestamp) : Outcome Runtime (Option String) :=
  Outcome.returned mk none

/-- One call of an operation of the runtime, with the arguments and the clock readings and
fresh identifier it consumes. -/
inductive Op where
  | InvokeAsync (uid : String) (tCreated tUpdated tCompleted : types.Timestamp)
      (spec : Option types.TaskRunSpec)
  | MockComplete (now : types.Timestamp) (fnInvocationID : String)
  | Invoke (uid : String) (tCreated tUpdated tCompleted tAgain : types.Timestamp)
      (spec : Option types.TaskRunSpec)
  | Cancel (now : types.Timestamp) (fnInvocationID : String)
  | Status (fnInvocationID : String)
  | Notify (taskID : String) (fn : types.FnRef) (expectedAt : types.Timestamp)

/-- The runtime as the call leaves it, whether it returned or panicked. -/
def Op.run (mk : Runtime) : Op → Runtime
  | Op.InvokeAsync uid t1 t2 t3 spec => (Runtime.InvokeAsync uid t1 t2 t3 mk spec).state
  | Op.MockComplete now id => (Runtime.MockComplete now mk id).state
  | Op.Invoke uid t1 t2 t3 t4 spec => (Runtime.Invoke uid t1 t2 t3 t4 mk spec).state
  | Op.Cancel now id => (Runtime.Cancel now mk id).state
  | Op.Status id => (Runtime.Status mk id).state
  | Op.Notify taskID fn expectedAt => (Runtime.Notify mk taskID fn expectedAt).state

/-- Whether the identifier an operation draws from `util.UID()` is fresh, that is, not yet
a key of `AsyncResults`. Operations that draw none are always fine. -/
def Op.fresh (mk : Runtime) : Op → Bool
  | Op.InvokeAsync uid _ _ _ _ => (mk.AsyncResults.get uid).isNone
  | Op.Invoke uid _ _ _ _ _ => (mk.AsyncResults.get uid).isNone
  | _ => true

/-- The runtime after a sequence of calls. -/
def runAll (mk : Runtime) : List Op → Runtime
  | [] => mk
  | op :: rest => runAll (op.run mk) rest

/-- Whether every call of the sequence draws a fresh identifier at the time it runs. -/
def allFresh (mk : Runtime) : List Op → Bool
  | [] => true
  | op :: rest => op.fresh mk && allFresh (op.run mk) rest

/-- Whether the result map is allocated and holds a record, not a nil pointer, under every
key. `NewRuntime` establishes this and every operation keeps it. -/
def Runtime.recordsPresent (mk : Runtime) : Bool :=
  match mk.AsyncResults with
  | GoMap.nil => false
  | GoMap.alloc l => l.all (fun e => e.2.isSome)

/-- Whether `Status(id)` returns, without error, a status whose value is final. -/
def Runtime.reportsFinal (mk : Runtime) (fnInvocationID : String) : Bool :=
  match (Runtime.Status mk fnInvocationID).value with
  | some (some st, none) => st.Finished
  | _ => false

end mock

/-! ## Sample data

Concrete values on which the properties below are exercised. -/

namespace sample

/-- The spec of scenario A: function `f`, input `x` bound to 42, task id `t1`. -/
def spec : types.TaskRunSpec :=
  { FnRef := some { ID := "f" },
    TaskId := "t1",
    Inputs := GoMap.alloc [("x", some { Type_ := "int", Value := [42], Labels := GoMap.nil })] }

/-- The result of scenario A: output 7. -/
def result : types.TaskRunStatus :=
  { Status := types.TaskRunStatus_Status.SUCCEEDED,
    UpdatedAt := none,
    Output := some { Type_ := "int", Value := [7], Labels := GoMap.nil },
    Error := none }

/-- A task-level error. -/
def failure : types.Error := { Message := "boom" }

/-- A decoder that tells the payload from the type tag of the envelope. -/
def unmarshal (event : fes.Event) : Except String fes.Message :=
  if event.Data = none then Except.error "message is nil"
  else if event.Type_ = "TaskStarted" then
    Except.ok (fes.Message.TaskStarted { Spec := some spec })
  else if event.Type_ = "TaskSucceeded" then
    Except.ok (fes.Message.TaskSucceeded { Result := some result })
  else if event.Type_ = "TaskFailed" then
    Except.ok (fes.Message.TaskFailed { Error := some failure })
  else if event.Type_ = "TaskSkipped" then
    Except.ok (fes.Message.TaskSkipped {})
  else Except.ok (fes.Message.Other event.Type_)

/-- An event of the task `t1` with the given type tag, stamped at the given second. -/
def event (typeName : String) (seconds : Int) : fes.Event :=
  { Aggregate := some (aggregates.NewTaskRunAggregate "t1"),
    Type_ := typeName,
    Data := some { TypeUrl := typeName, Value := [] },
    Timestamp := some { Seconds := seconds, Nanos := 0 } }

/-- An entity whose projection has succeeded. -/
def finished : aggregates.TaskRun :=
  { BaseEntity := { aggregate := aggregates.NewTaskRunAggregate "t1" },
    TaskRun_ := some
      { Metadata := some { Id := "t1", CreatedAt := none },
        Spec := some spec,
        Status := some result } }

/-- An entity whose projection has no status yet. -/
def statusless : aggregates.TaskRun :=
  aggregates.NewTaskRun "t1" (some { Metadata := none, Spec := none, Status := none })

/-- A spec naming the function `ghost`, which no sample runtime registers. -/
def ghostSpec : types.TaskRunSpec :=
  { FnRef := some { ID := "ghost" }, TaskId := "t2", Inputs := GoMap.nil }

/-- A mocked function returning the output 7. -/
def seven : mock.Func :=
  fun _ => (some { Type_ := "int", Value := [7], Labels := GoMap.nil }, none)

/-- A runtime that registers `f` and leaves completion to the caller. -/
def manualRuntime : mock.Runtime :=
  { Functions := GoMap.alloc [("f", some seven)],
    AsyncResults := GoMap.alloc [],
    ManualExecution := true }

/-- The clock reading at the given second. -/
def at_ (seconds : Int) : types.Timestamp := { Seconds := seconds, Nanos := 0 }

/-- A mocked function that fails. -/
def failing : mock.Func :=
  fun _ => (none, some "boom")

/-- The record `InvokeAsync` stores for the sample spec under `inv-1`. -/
def pending : types.TaskRun :=
  { Metadata := some { Id := "inv-1", CreatedAt := some (at_ 1) },
    Spec := some spec,
    Status := some
      { Status := types.TaskRunStatus_Status.IN_PROGRESS,
        UpdatedAt := some (at_ 1),
        Output := none,
        Error := none } }

/-- A runtime holding one pending invocation, `inv-1`. -/
def busyRuntime : mock.Runtime :=
  { Functions := GoMap.alloc [("f", some seven)],
    AsyncResults := GoMap.alloc [("inv-1", some pending)],
    ManualExecution := true }

/-- A runtime whose function `f` fails and which completes invocations at once. -/
def failingRuntime : mock.Runtime :=
  { Functions := GoMap.alloc [("f", some failing)],
    AsyncResults := GoMap.alloc [],
    ManualExecution := false }

/-- A runtime whose invocation `inv-1` has been cancelled. -/
def cancelledRuntime : mock.Runtime :=
  (mock.Runtime.Cancel (at_ 2) busyRuntime "inv-1").state

/-- Calls made after `inv-1` was cancelled: a completion of `inv-1`, a new invocation, a
status query, a cancellation of the new invocation, a notification and a blocking call. -/
def laterOps : List mock.Op :=
  [ mock.Op.MockComplete (at_ 3) "inv-1",
    mock.Op.InvokeAsync "inv-2" (at_ 4) (at_ 4) (at_ 5) (some spec),
    mock.Op.Status "inv-1",
    mock.Op.Cancel (at_ 6) "inv-2",
    mock.Op.Notify "t1" { ID := "f" } (at_ 7),
    mock.Op.Invoke "inv-3" (at_ 8) (at_ 8) (at_ 9) (at_ 10) (some spec) ]

/-- A task spec without dependencies. -/
def taskSpec : types.TaskSpec :=
  { FunctionRef := "f", Inputs := GoMap.nil, Requires := GoMap.nil, Await := 0 }

/-- Dependency parameters of the dynamic-output kind. -/
def dynamicOutput : types.TaskDependencyParameters :=
  { Type_ := types.TaskDependencyParameters_DependencyType.DYNAMIC_OUTPUT }

/-- Dependency parameters of another, static kind. -/
def static : types.TaskDependencyParameters :=
  { Type_ := types.TaskDependencyParameters_DependencyType.OTHER 0 }

/-- A workflow with the task `a` whose status holds no task map. -/
def workflow : types.Workflow :=
  { Metadata := some { Id := "wf", CreatedAt := some (at_ 1) },
    Spec := some
      { Tasks := GoMap.alloc [("a", some taskSpec)], OutputTask := "a", Description := "" },
    Status := some { Status := types.WorkflowStatus_Status.READY, Tasks := GoMap.nil } }

/-- A task spec whose Inputs map is allocated and empty. -/
def emptyInputsSpec : types.TaskSpec :=
  { FunctionRef := "f", Inputs := GoMap.alloc [], Requires := GoMap.nil, Await := 0 }

/-- A task spec with one input and one dependency. -/
def inputSpec : types.TaskSpec :=
  { FunctionRef := "g",
    Inputs := GoMap.alloc
      [("x", some { Type_ := "int", Value := [42], Labels := GoMap.alloc [("src", "user")] })],
    Requires := GoMap.alloc [("t0", some dynamicOutput)],
    Await := 1 }

/-- An overlay that requires `t1` statically and awaits two tasks. -/
def overlaySpec : types.TaskSpec :=
  { FunctionRef := "", Inputs := GoMap.nil,
    Requires := GoMap.alloc [("t1", some static)], Await := 2 }

end sample

/-! ## Properties of the task-run entity -/

/-- C1: a Started event carrying the spec `s` followed by a Succeeded event carrying the
result `r`, applied to a fresh entity, both return without error; the projection then has
status SUCCEEDED, the output of `r`, the spec `s` and metadata whose id is the task id of
`s`. The time stamps of the two events are arbitrary. -/
theorem started_then_succeeded
    (U : fes.Event → Except String fes.Message) (c1 c2 : Option types.Timestamp)
    (id : String) (fi : Option types.TaskRun) (e1 e2 : fes.Event)
    (s : types.TaskRunSpec) (r : types.TaskRunStatus)
    (h1 : U e1 = Except.ok (fes.Message.TaskStarted { Spec := some s }))
    (h2 : U e2 = Except.ok (fes.Message.TaskSucceeded { Result := some r })) :
    aggregates.TaskRun.ApplyEvent U c1 (aggregates.NewTaskRun id fi) e1
      = Outcome.returned
          (aggregates.NewTaskRun id (some
            { Metadata := some { Id := s.TaskId, CreatedAt := c1 },
              Spec := some s,
              Status := some
                { Status := types.TaskRunStatus_Status.IN_PROGRESS,
                  UpdatedAt := e1.Timestamp,
                  Output := none,
                  Error := none } }))
          none ∧
    aggregates.TaskRun.ApplyEvent U c2
        (aggregates.NewTaskRun id (some
          { Metadata := some { Id := s.TaskId, CreatedAt := c1 },
            Spec := some s,
            Status := some
              { Status := types.TaskRunStatus_Status.IN_PROGRESS,
                UpdatedAt := e1.Timestamp,
                Output := none,
                Error := none } })) e2
      = Outcome.returned
          (aggregates.NewTaskRun id (some
            { Metadata := some { Id := s.TaskId, CreatedAt := c1 },
              Spec := some s,
              Status := some
                { Status := types.TaskRunStatus_Status.SUCCEEDED,
                  UpdatedAt := e2.Timestamp,
                  Output := r.Output,
                  Error := none } }))
          none := by
  constructor
  · simp only [aggregates.TaskRun.ApplyEvent, h1, aggregates.NewTaskRun,
      types.NewObjectMetadata]
  · simp only [aggregates.TaskRun.ApplyEvent, h2, aggregates.NewTaskRun]

/-- Scenario A on the sample data: the projection ends SUCCEEDED with output 7. -/
theorem started_then_succeeded_witness :
    aggregates.TaskRun.ApplyEvent sample.unmarshal none (aggregates.NewTaskRun "t1" none)
        (sample.event "TaskStarted" 1)
      = Outcome.returned
          (aggregates.NewTaskRun "t1" (some
            { Metadata := some { Id := "t1", CreatedAt := none },
              Spec := some sample.spec,
              Status := some
                { Status := types.TaskRunStatus_Status.IN_PROGRESS,
                  UpdatedAt := some { Seconds := 1, Nanos := 0 },
                  Output := none,
                  Error := none } }))
          none ∧
    aggregates.TaskRun.ApplyEvent sample.unmarshal none
        (aggregates.NewTaskRun "t1" (some
          { Metadata := some { Id := "t1", CreatedAt := none },
            Spec := some sample.spec,
            Status := some
              { Status := types.TaskRunStatus_Status.IN_PROGRESS,
                UpdatedAt := some { Seconds := 1, Nanos := 0 },
                Output := none,
                Error := none } })) (sample.event "TaskSucceeded" 2)
      = Outcome.returned
          (aggregates.NewTaskRun "t1" (some
            { Metadata := some { Id := "t1", CreatedAt := none },
              Spec := some sample.spec,
              Status := some
                { Status := types.TaskRunStatus_Status.SUCCEEDED,
                  UpdatedAt := some { Seconds := 2, Nanos := 0 },
                  Output := some { Type_ := "int", Value := [7], Labels := GoMap.nil },
                  Error := none } }))
          none :=
  started_then_succeeded sample.unmarshal none none "t1" none
    (sample.event "TaskStarted" 1) (sample.event "TaskSucceeded" 2) sample.spec sample.result
    rfl rfl

/-- A final entity holds a projection with a status, and that status is final. -/
theorem isFinal_iff (ti : aggregates.TaskRun) :
    ti.isFinal = true ↔
      ∃ tr st, ti.TaskRun_ = some tr ∧ tr.Status = some st ∧ st.Finished = true := by
  obtain ⟨base, p⟩ := ti
  cases p with
  | none => simp [aggregates.TaskRun.isFinal, aggregates.TaskRun.Status]
  | some tr =>
    cases hs : tr.Status with
    | none => simp [aggregates.TaskRun.isFinal, aggregates.TaskRun.Status, hs]
    | some st => simp [aggregates.TaskRun.isFinal, aggregates.TaskRun.Status, hs]

/-- C2, as stated, fails: a Started event applied to a projection that has SUCCEEDED is
accepted without error and puts the status back to IN_PROGRESS, which is not final. -/
theorem finality_lost_on_started :
    sample.finished.isFinal = true ∧
    (aggregates.TaskRun.ApplyEvent sample.unmarshal none sample.finished
      (sample.event "TaskStarted" 5)).value = some none ∧
    (aggregates.TaskRun.ApplyEvent sample.unmarshal none sample.finished
      (sample.event "TaskStarted" 5)).state.Status
      = some
          { Status := types.TaskRunStatus_Status.IN_PROGRESS,
            UpdatedAt := some { Seconds := 5, Nanos := 0 },
            Output := none,
            Error := none } ∧
    (aggregates.TaskRun.ApplyEvent sample.unmarshal none sample.finished
      (sample.event "TaskStarted" 5)).state.isFinal = false := by
  refine ⟨rfl, rfl, rfl, rfl⟩

/-- C2, amended: on a projection whose status is final, every event whose payload does
not decode to Started (Succeeded, Failed, Skipped, an unrecognised kind, or a payload that
fails to decode) leaves a projection whose status is final; a Started event carrying a spec
re-creates the projection with status IN_PROGRESS. -/
theorem finality_kept_unless_started
    (U : fes.Event → Except String fes.Message) (c : Option types.Timestamp)
    (ti : aggregates.TaskRun) (ev : fes.Event) (hfin : ti.isFinal = true) :
    ((∀ m, U ev ≠ Except.ok (fes.Message.TaskStarted m)) →
      (aggregates.TaskRun.ApplyEvent U c ti ev).state.isFinal = true) ∧
    (∀ s, U ev = Except.ok (fes.Message.TaskStarted { Spec := some s }) →
      (aggregates.TaskRun.ApplyEvent U c ti ev).state.Status
        = some
            { Status := types.TaskRunStatus_Status.IN_PROGRESS,
              UpdatedAt := ev.Timestamp,
              Output := none,
              Error := none }) := by
  obtain ⟨tr, st, htr, hst, hf⟩ := (isFinal_iff ti).mp hfin
  constructor
  · intro hns
    cases hU : U ev with
    | error e =>
      simp only [aggregates.TaskRun.ApplyEvent, hU, Outcome.state]
      exact hfin
    | ok msg =>
      cases msg with
      | TaskStarted m => exact absurd hU (hns m)
      | TaskSucceeded m =>
        cases hr : m.Result with
        | none =>
          simp only [aggregates.TaskRun.ApplyEvent, hU, htr, hst, hr, Outcome.state]
          exact hfin
        | some r =>
          simp only [aggregates.TaskRun.ApplyEvent, hU, htr, hst, hr, Outcome.state]
          rfl
      | TaskFailed m =>
        simp only [aggregates.TaskRun.ApplyEvent, hU, htr, hst, Outcome.state]
        rfl
      | TaskSkipped m =>
        simp only [aggregates.TaskRun.ApplyEvent, hU, htr, hst, Outcome.state]
        rfl
      | Other tn =>
        simp only [aggregates.TaskRun.ApplyEvent, hU, Outcome.state]
        exact hfin
  · intro s hU
    simp only [aggregates.TaskRun.ApplyEvent, hU, Outcome.state]
    rfl

/-- A Failed event on the succeeded sample projection leaves it final. -/
theorem finality_kept_unless_started_witness :
    sample.finished.isFinal = true ∧
    (aggregates.TaskRun.ApplyEvent sample.unmarshal none sample.finished
      (sample.event "TaskFailed" 6)).state.isFinal = true :=
  ⟨rfl,
   (finality_kept_unless_started sample.unmarshal none sample.finished
      (sample.event "TaskFailed" 6) rfl).1
     (fun m h => by
        have h2 : sample.unmarshal (sample.event "TaskFailed" 6)
            = Except.ok (fes.Message.TaskFailed { Error := some sample.failure }) := rfl
        rw [h2] at h
        cases h)⟩

/-- C4: when ApplyEvent applies an event whose payload is Started, Succeeded, Failed or
Skipped and returns without error, the status of the projection carries the time stamp of
the event as UpdatedAt. This holds whatever creation stamp the metadata helper writes; no
reading of the clock enters the status. -/
theorem updatedAt_is_event_timestamp
    (U : fes.Event → Except String fes.Message) (c : Option types.Timestamp)
    (ti ti1 : aggregates.TaskRun) (ev : fes.Event) (msg : fes.Message)
    (hdec : U ev = Except.ok msg)
    (hkind : ∀ typeName, msg ≠ fes.Message.Other typeName)
    (happ : aggregates.TaskRun.ApplyEvent U c ti ev = Outcome.returned ti1 none) :
    ∃ st, ti1.Status = some st ∧ st.UpdatedAt = ev.Timestamp := by
  obtain ⟨base, p⟩ := ti
  cases msg with
  | TaskStarted m =>
    cases hs : m.Spec with
    | none => simp [aggregates.TaskRun.ApplyEvent, hdec, hs] at happ
    | some s =>
      simp only [aggregates.TaskRun.ApplyEvent, hdec, hs, Outcome.returned.injEq,
        and_true] at happ
      subst happ
      exact ⟨_, rfl, rfl⟩
  | TaskSucceeded m =>
    cases p with
    | none => simp [aggregates.TaskRun.ApplyEvent, hdec] at happ
    | some tr =>
      cases hst : tr.Status with
      | none => simp [aggregates.TaskRun.ApplyEvent, hdec, hst] at happ
      | some st =>
        cases hr : m.Result with
        | none => simp [aggregates.TaskRun.ApplyEvent, hdec, hst, hr] at happ
        | some r =>
          simp only [aggregates.TaskRun.ApplyEvent, hdec, hst, hr, Outcome.returned.injEq,
            and_true] at happ
          subst happ
          exact ⟨_, rfl, rfl⟩
  | TaskFailed m =>
    cases p with
    | none => simp [aggregates.TaskRun.ApplyEvent, hdec] at happ
    | some tr =>
      simp only [aggregates.TaskRun.ApplyEvent, hdec, Outcome.returned.injEq,
        and_true] at happ
      subst happ
      exact ⟨_, rfl, rfl⟩
  | TaskSkipped m =>
    cases p with
    | none => simp [aggregates.TaskRun.ApplyEvent, hdec] at happ
    | some tr =>
      cases hst : tr.Status with
      | none => simp [aggregates.TaskRun.ApplyEvent, hdec, hst] at happ
      | some st =>
        simp only [aggregates.TaskRun.ApplyEvent, hdec, hst, Outcome.returned.injEq,
          and_true] at happ
        subst happ
        exact ⟨_, rfl, rfl⟩
  | Other tn => exact absurd rfl (hkind tn)

/-- A Skipped event stamped at second 9 on the succeeded sample projection. -/
theorem updatedAt_is_event_timestamp_witness :
    ∃ st,
      (aggregates.TaskRun.ApplyEvent sample.unmarshal none sample.finished
        (sample.event "TaskSkipped" 9)).state.Status = some st ∧
      st.UpdatedAt = some { Seconds := 9, Nanos := 0 } :=
  updatedAt_is_event_timestamp sample.unmarshal none sample.finished
    (aggregates.TaskRun.ApplyEvent sample.unmarshal none sample.finished
      (sample.event "TaskSkipped" 9)).state
    (sample.event "TaskSkipped" 9) (fes.Message.TaskSkipped {}) rfl
    (fun _ h => by cases h) rfl

/-- C5: an event whose decoded payload is none of Started, Succeeded, Failed, Skipped makes
ApplyEvent return without error and leaves the entity, hence the whole projection
(Metadata, Spec and Status), as it was. -/
theorem unrecognised_event_ignored
    (U : fes.Event → Except String fes.Message) (c : Option types.Timestamp)
    (ti : aggregates.TaskRun) (ev : fes.Event) (typeName : String)
    (hdec : U ev = Except.ok (fes.Message.Other typeName)) :
    aggregates.TaskRun.ApplyEvent U c ti ev = Outcome.returned ti none := by
  simp only [aggregates.TaskRun.ApplyEvent, hdec]

/-- An event tagged `TaskRetried` leaves the succeeded sample projection untouched. -/
theorem unrecognised_event_ignored_witness :
    aggregates.TaskRun.ApplyEvent sample.unmarshal none sample.finished
      (sample.event "TaskRetried" 3) = Outcome.returned sample.finished none :=
  unrecognised_event_ignored sample.unmarshal none sample.finished
    (sample.event "TaskRetried" 3) "TaskRetried" rfl

/-- C6: a Failed event carrying the error `m.Error`, applied to an entity holding the
projection `tr` (whose Status may be absent), returns without error; Metadata and Spec stay
as they were and the Status is present afterwards with value FAILED, the error of the
event and the time stamp of the event. A status that was present keeps its Output; an
absent one is created from the zero value. -/
theorem failed_sets_status
    (U : fes.Event → Except String fes.Message) (c : Option types.Timestamp)
    (base : fes.BaseEntity) (tr : types.TaskRun) (ev : fes.Event) (m : events.TaskFailed)
    (hdec : U ev = Except.ok (fes.Message.TaskFailed m)) :
    ∃ st : types.TaskRunStatus,
      aggregates.TaskRun.ApplyEvent U c { BaseEntity := base, TaskRun_ := some tr } ev
        = Outcome.returned
            { BaseEntity := base,
              TaskRun_ := some { Metadata := tr.Metadata, Spec := tr.Spec, Status := some st } }
            none ∧
      st.Status = types.TaskRunStatus_Status.FAILED ∧
      st.Error = m.Error ∧
      st.UpdatedAt = ev.Timestamp ∧
      (tr.Status = none → st.Output = none) ∧
      (∀ st0, tr.Status = some st0 → st.Output = st0.Output) := by
  cases hst : tr.Status with
  | none =>
    refine ⟨{ Status := types.TaskRunStatus_Status.FAILED, UpdatedAt := ev.Timestamp,
              Output := none, Error := m.Error }, ?_, rfl, rfl, rfl, fun _ => rfl, ?_⟩
    · simp only [aggregates.TaskRun.ApplyEvent, hdec, hst, types.TaskRunStatus.zero]
    · intro st0 h
      cases h
  | some st0 =>
    refine ⟨{ Status := types.TaskRunStatus_Status.FAILED, UpdatedAt := ev.Timestamp,
              Output := st0.Output, Error := m.Error }, ?_, rfl, rfl, rfl, ?_, ?_⟩
    · simp only [aggregates.TaskRun.ApplyEvent, hdec, hst]
    · intro h
      cases h
    · intro st1 h
      cases h
      rfl

/-- A Failed event on the sample projection that has no status creates the status. -/
theorem failed_sets_status_witness :
    ∃ st : types.TaskRunStatus,
      aggregates.TaskRun.ApplyEvent sample.unmarshal none sample.statusless
          (sample.event "TaskFailed" 4)
        = Outcome.returned
            { BaseEntity := sample.statusless.BaseEntity,
              TaskRun_ := some { Metadata := none, Spec := none, Status := some st } }
            none ∧
      st.Status = types.TaskRunStatus_Status.FAILED ∧
      st.Error = some sample.failure ∧
      st.UpdatedAt = some { Seconds := 4, Nanos := 0 } ∧
      ((none : Option types.TaskRunStatus) = none → st.Output = none) ∧
      (∀ st0, (none : Option types.TaskRunStatus) = some st0 → st.Output = st0.Output) :=
  failed_sets_status sample.unmarshal none sample.statusless.BaseEntity
    { Metadata := none, Spec := none, Status := none } (sample.event "TaskFailed" 4)
    { Error := some sample.failure } rfl

/-! ## Properties of the status helpers -/

/-- C7: ToTaskStatus maps each of the six invocation statuses UNKNOWN, SCHEDULED,
IN_PROGRESS, SUCCEEDED, FAILED, ABORTED to the task status of the same name (so SCHEDULED
and IN_PROGRESS do not fall to the zero value UNKNOWN) and passes Error, UpdatedAt and
Output through unchanged. -/
theorem toTaskStatus_same_name (m : types.WorkflowInvocationStatus) :
    m.ToTaskStatus.Error = m.Error ∧
    m.ToTaskStatus.UpdatedAt = m.UpdatedAt ∧
    m.ToTaskStatus.Output = m.Output ∧
    m.ToTaskStatus.Status =
      (match m.Status with
       | types.WorkflowInvocationStatus_Status.UNKNOWN => types.TaskRunStatus_Status.UNKNOWN
       | types.WorkflowInvocationStatus_Status.SCHEDULED => types.TaskRunStatus_Status.SCHEDULED
       | types.WorkflowInvocationStatus_Status.IN_PROGRESS =>
           types.TaskRunStatus_Status.IN_PROGRESS
       | types.WorkflowInvocationStatus_Status.SUCCEEDED => types.TaskRunStatus_Status.SUCCEEDED
       | types.WorkflowInvocationStatus_Status.FAILED => types.TaskRunStatus_Status.FAILED
       | types.WorkflowInvocationStatus_Status.ABORTED => types.TaskRunStatus_Status.ABORTED) ∧
    (m.Status ≠ types.WorkflowInvocationStatus_Status.UNKNOWN →
      m.ToTaskStatus.Status ≠ types.TaskRunStatus_Status.UNKNOWN) := by
  obtain ⟨s, u, t, o, e⟩ := m
  refine ⟨rfl, rfl, rfl, ?_, ?_⟩
  · cases s <;> rfl
  · cases s <;> simp [types.WorkflowInvocationStatus.ToTaskStatus, types.statusIndex,
      types.statusMapping]

/-- C8: Finished is membership in the final-state set of the type, Successful is equality
with SUCCEEDED, and Successful implies Finished, for task-run status and for invocation
status alike. -/
theorem finished_iff_final (ti : types.TaskRunStatus) (m : types.WorkflowInvocationStatus) :
    (ti.Finished = true ↔
      (ti.Status = types.TaskRunStatus_Status.SUCCEEDED ∨
       ti.Status = types.TaskRunStatus_Status.FAILED ∨
       ti.Status = types.TaskRunStatus_Status.ABORTED ∨
       ti.Status = types.TaskRunStatus_Status.SKIPPED)) ∧
    (m.Finished = true ↔
      (m.Status = types.WorkflowInvocationStatus_Status.ABORTED ∨
       m.Status = types.WorkflowInvocationStatus_Status.SUCCEEDED ∨
       m.Status = types.WorkflowInvocationStatus_Status.FAILED)) ∧
    (ti.Successful = true ↔ ti.Status = types.TaskRunStatus_Status.SUCCEEDED) ∧
    (m.Successful = true ↔ m.Status = types.WorkflowInvocationStatus_Status.SUCCEEDED) ∧
    (ti.Successful = true → ti.Finished = true) ∧
    (m.Successful = true → m.Finished = true) := by
  obtain ⟨s, u, o, e⟩ := ti
  obtain ⟨s1, u1, t1, o1, e1⟩ := m
  refine ⟨?_, ?_, ?_, ?_, ?_, ?_⟩
  · cases s <;> simp [types.TaskRunStatus.Finished, types.rangeHas, types.taskFinalStates]
  · cases s1 <;> simp [types.WorkflowInvocationStatus.Finished, types.rangeHas,
      types.invocationFinalStates]
  · simp [types.TaskRunStatus.Successful]
  · simp [types.WorkflowInvocationStatus.Successful]
  · cases s <;> simp [types.TaskRunStatus.Successful, types.TaskRunStatus.Finished,
      types.rangeHas, types.taskFinalStates]
  · cases s1 <;> simp [types.WorkflowInvocationStatus.Successful,
      types.WorkflowInvocationStatus.Finished, types.rangeHas, types.invocationFinalStates]

/-! ## Properties of the mocked runtime -/

/-- After `m[k] = v` on an entry list, the lookup of `k` finds `v`. -/
theorem GoMap.find_store_same {V : Type} (k : String) (v : V) (l : List (String × V)) :
    GoMap.find k (GoMap.store k v l) = some v := by
  induction l with
  | nil => simp [GoMap.store, GoMap.find]
  | cons hd tl ih =>
    obtain ⟨k1, v1⟩ := hd
    by_cases h : k1 = k
    · simp [GoMap.store, GoMap.find, h]
    · simp [GoMap.store, GoMap.find, h, ih]

/-- After `m[k] = v` on an entry list, the lookup of another key is as before. -/
theorem GoMap.find_store_other {V : Type} (k k2 : String) (v : V) (l : List (String × V))
    (h : k2 ≠ k) : GoMap.find k2 (GoMap.store k v l) = GoMap.find k2 l := by
  induction l with
  | nil => simp [GoMap.store, GoMap.find, Ne.symm h]
  | cons hd tl ih =>
    obtain ⟨k1, v1⟩ := hd
    by_cases h1 : k1 = k
    · subst h1
      simp [GoMap.store, GoMap.find, Ne.symm h]
    · by_cases h2 : k1 = k2
      · subst h2
        simp [GoMap.store, GoMap.find, h]
      · simp [GoMap.store, GoMap.find, h1, h2, ih]

/-- A write through the pointer under a key that the map holds is seen by the next lookup. -/
theorem GoMap.get_poke_same {V : Type} (m : GoMap V) (k : String) (v v0 : V)
    (h : m.get k = some v0) : (m.poke k v).get k = some v := by
  cases m with
  | nil => simp [GoMap.get] at h
  | alloc l => simp [GoMap.poke, GoMap.get, GoMap.find_store_same]

/-- Reading an allocated map is a lookup in its entry list. -/
theorem GoMap.get_alloc {V : Type} (l : List (String × V)) (k : String) :
    (GoMap.alloc l).get k = GoMap.find k l := rfl

/-- A write through a pointer of an allocated map changes the entry list. -/
theorem GoMap.poke_alloc {V : Type} (l : List (String × V)) (k : String) (v : V) :
    (GoMap.alloc l).poke k v = GoMap.alloc (GoMap.store k v l) := rfl

/-- Cancel on a recorded invocation returns without error, and the Status call that
follows returns the ABORTED status Cancel wrote. -/
theorem mock.cancel_then_status (now : types.Timestamp) (mk : mock.Runtime) (id : String)
    (inv : types.TaskRun) (hrec : mk.AsyncResults.get id = some (some inv)) :
    (mock.Runtime.Cancel now mk id).value = some none ∧
    (mock.Runtime.Status (mock.Runtime.Cancel now mk id).state id).value
      = some
          (some
            { Status := types.TaskRunStatus_Status.ABORTED,
              UpdatedAt := some now,
              Output := none,
              Error := none },
           none) := by
  constructor
  · simp only [mock.Runtime.Cancel, hrec, Outcome.value]
  · simp only [mock.Runtime.Cancel, hrec, Outcome.state, mock.Runtime.Status,
      GoMap.get_poke_same _ _ _ _ hrec, Outcome.value]

/-- InvokeAsync on a runtime whose result map is allocated, for a spec whose function is
registered with a callable value, returns the fresh id without error and leaves a record
under that id. -/
theorem mock.invokeAsync_records (uid : String) (t1 t2 t3 : types.Timestamp)
    (mk : mock.Runtime) (sp : types.TaskRunSpec) (ref : types.FnRef) (fn : mock.Func)
    (l : List (String × Option types.TaskRun))
    (hsp : sp.FnRef = some ref) (hfn : mk.Functions.get ref.ID = some (some fn))
    (hmap : mk.AsyncResults = GoMap.alloc l) :
    (mock.Runtime.InvokeAsync uid t1 t2 t3 mk (some sp)).value = some (uid, none) ∧
    ∃ inv : types.TaskRun,
      (mock.Runtime.InvokeAsync uid t1 t2 t3 mk (some sp)).state.AsyncResults.get uid
        = some (some inv) := by
  by_cases hman : mk.ManualExecution = true
  · simp only [mock.Runtime.InvokeAsync, hsp, hfn, hmap, GoMap.set, hman, if_true,
      Outcome.value, Outcome.state, GoMap.get_alloc, GoMap.find_store_same, true_and]
    exact ⟨_, rfl⟩
  · have hman1 : mk.ManualExecution = false := by simpa using hman
    rcases hres : fn (some sp) with ⟨res, err⟩
    cases err with
    | none =>
      simp only [mock.Runtime.InvokeAsync, hsp, hfn, hmap, GoMap.set, hman1,
        mock.Runtime.MockComplete, GoMap.get_alloc, GoMap.find_store_same, hres,
        Outcome.value, Outcome.state, GoMap.poke_alloc, Bool.false_eq_true, if_false,
        true_and]
      exact ⟨_, rfl⟩
    | some e =>
      simp only [mock.Runtime.InvokeAsync, hsp, hfn, hmap, GoMap.set, hman1,
        mock.Runtime.MockComplete, GoMap.get_alloc, GoMap.find_store_same, hres,
        Outcome.value, Outcome.state, GoMap.poke_alloc, Bool.false_eq_true, if_false,
        true_and]
      exact ⟨_, rfl⟩

/-- C9: InvokeAsync for a spec whose function id is not a key of Functions returns the
empty invocation id together with the unknown-function error, and the runtime is left as
it was, so nothing is recorded in AsyncResults. -/
theorem invokeAsync_unknown_function (uid : String) (t1 t2 t3 : types.Timestamp)
    (mk : mock.Runtime) (sp : types.TaskRunSpec) (ref : types.FnRef)
    (hsp : sp.FnRef = some ref) (hfn : mk.Functions.get ref.ID = none) :
    mock.Runtime.InvokeAsync uid t1 t2 t3 mk (some sp)
      = Outcome.returned mk ("", some (mock.unknownFunction ref.ID)) := by
  simp only [mock.Runtime.InvokeAsync, hsp, hfn]

/-- Scenario B: invoking `ghost` on a new runtime. -/
theorem invokeAsync_unknown_function_witness :
    mock.Runtime.InvokeAsync "inv-1" (sample.at_ 1) (sample.at_ 1) (sample.at_ 2)
        mock.NewRuntime (some sample.ghostSpec)
      = Outcome.returned mock.NewRuntime
          ("", some "could not invoke unknown function 'ghost'") :=
  invokeAsync_unknown_function "inv-1" (sample.at_ 1) (sample.at_ 1) (sample.at_ 2)
    mock.NewRuntime sample.ghostSpec { ID := "ghost" } rfl rfl

/-- C10: for an invocation recorded under `id`, whatever its status, Cancel returns
without error and the Status call that follows returns a status whose value is ABORTED.
In particular, when InvokeAsync has recorded an invocation (allocated result map, function
registered), Cancel on the id it returned yields ABORTED, whether or not the invocation
was completed in between. -/
theorem cancel_yields_aborted (now : types.Timestamp) (mk : mock.Runtime) :
    (∀ (id : String) (inv : types.TaskRun), mk.AsyncResults.get id = some (some inv) →
      (mock.Runtime.Cancel now mk id).value = some none ∧
      (mock.Runtime.Status (mock.Runtime.Cancel now mk id).state id).value
        = some
            (some
              { Status := types.TaskRunStatus_Status.ABORTED,
                UpdatedAt := some now,
                Output := none,
                Error := none },
             none)) ∧
    (∀ (uid : String) (t1 t2 t3 : types.Timestamp) (sp : types.TaskRunSpec)
        (ref : types.FnRef) (fn : mock.Func) (l : List (String × Option types.TaskRun)),
      sp.FnRef = some ref → mk.Functions.get ref.ID = some (some fn) →
      mk.AsyncResults = GoMap.alloc l →
      (mock.Runtime.InvokeAsync uid t1 t2 t3 mk (some sp)).value = some (uid, none) ∧
      (mock.Runtime.Cancel now
        (mock.Runtime.InvokeAsync uid t1 t2 t3 mk (some sp)).state uid).value = some none ∧
      (mock.Runtime.Status
        (mock.Runtime.Cancel now
          (mock.Runtime.InvokeAsync uid t1 t2 t3 mk (some sp)).state uid).state uid).value
        = some
            (some
              { Status := types.TaskRunStatus_Status.ABORTED,
                UpdatedAt := some now,
                Output := none,
                Error := none },
             none)) := by
  constructor
  · intro id inv hrec
    exact mock.cancel_then_status now mk id inv hrec
  · intro uid t1 t2 t3 sp ref fn l hsp hfn hmap
    obtain ⟨hret, inv, hrec⟩ := mock.invokeAsync_records uid t1 t2 t3 mk sp ref fn l hsp hfn hmap
    exact ⟨hret, mock.cancel_then_status now _ uid inv hrec⟩

/-- Scenario C: InvokeAsync on a runtime with manual completion, then Cancel. -/
theorem cancel_yields_aborted_witness :
    (mock.Runtime.InvokeAsync "inv-1" (sample.at_ 1) (sample.at_ 1) (sample.at_ 2)
      sample.manualRuntime (some sample.spec)).value = some ("inv-1", none) ∧
    (mock.Runtime.Cancel (sample.at_ 3)
      (mock.Runtime.InvokeAsync "inv-1" (sample.at_ 1) (sample.at_ 1) (sample.at_ 2)
        sample.manualRuntime (some sample.spec)).state "inv-1").value = some none ∧
    (mock.Runtime.Status
      (mock.Runtime.Cancel (sample.at_ 3)
        (mock.Runtime.InvokeAsync "inv-1" (sample.at_ 1) (sample.at_ 1) (sample.at_ 2)
          sample.manualRuntime (some sample.spec)).state "inv-1").state "inv-1").value
      = some
          (some
            { Status := types.TaskRunStatus_Status.ABORTED,
              UpdatedAt := some { Seconds := 3, Nanos := 0 },
              Output := none,
              Error := none },
           none) :=
  (cancel_yields_aborted (sample.at_ 3) sample.manualRuntime).2 "inv-1" (sample.at_ 1)
    (sample.at_ 1) (sample.at_ 2) sample.spec { ID := "f" } sample.seven [] rfl rfl rfl

/-! ## Replay -/

/-- One step of replay on two entities that agree up to the creation stamp: whatever
creation stamps the metadata helper writes, the two applications have the same kind of
outcome, the same error value, and entities that again agree up to the creation stamp. -/
theorem applyEvent_agrees_up_to_createdAt
    (U : fes.Event → Except String fes.Message) (c1 c2 : Option types.Timestamp)
    (ti1 ti2 : aggregates.TaskRun) (ev : fes.Event)
    (h : ti1.withoutCreatedAt = ti2.withoutCreatedAt) :
    (aggregates.TaskRun.ApplyEvent U c1 ti1 ev).mapState aggregates.TaskRun.withoutCreatedAt
      = (aggregates.TaskRun.ApplyEvent U c2 ti2 ev).mapState
          aggregates.TaskRun.withoutCreatedAt := by
  obtain ⟨b1, p1⟩ := ti1
  obtain ⟨b2, p2⟩ := ti2
  simp only [aggregates.TaskRun.withoutCreatedAt, aggregates.TaskRun.mk.injEq] at h
  obtain ⟨hb, hp⟩ := h
  subst hb
  cases hU : U ev with
  | error e =>
    simp only [aggregates.TaskRun.ApplyEvent, hU, Outcome.mapState,
      aggregates.TaskRun.withoutCreatedAt, hp]
  | ok msg =>
    cases p1 with
    | none =>
      cases p2 with
      | none =>
        cases msg with
        | TaskStarted m =>
          cases hs : m.Spec <;>
            simp [aggregates.TaskRun.ApplyEvent, hU, hs, Outcome.mapState,
              aggregates.TaskRun.withoutCreatedAt, types.NewObjectMetadata]
        | TaskSucceeded m =>
          simp [aggregates.TaskRun.ApplyEvent, hU, Outcome.mapState]
        | TaskFailed m =>
          simp [aggregates.TaskRun.ApplyEvent, hU, Outcome.mapState]
        | TaskSkipped m =>
          simp [aggregates.TaskRun.ApplyEvent, hU, Outcome.mapState]
        | Other tn =>
          simp [aggregates.TaskRun.ApplyEvent, hU, Outcome.mapState]
      | some tr2 => simp at hp
    | some tr1 =>
      cases p2 with
      | none => simp at hp
      | some tr2 =>
        obtain ⟨m1, s1, st1⟩ := tr1
        obtain ⟨m2, s2, st2⟩ := tr2
        simp only [Option.map_some', Option.some.injEq, types.TaskRun.mk.injEq] at hp
        obtain ⟨hm, hs, hst⟩ := hp
        subst hs
        subst hst
        cases msg with
        | TaskStarted m =>
          cases hs : m.Spec <;>
            simp [aggregates.TaskRun.ApplyEvent, hU, hs, Outcome.mapState,
              aggregates.TaskRun.withoutCreatedAt, types.NewObjectMetadata, hm]
        | TaskSucceeded m =>
          simp only [aggregates.TaskRun.ApplyEvent, hU]
          cases st1 with
          | none => simp [Outcome.mapState, aggregates.TaskRun.withoutCreatedAt, hm]
          | some st =>
            cases m.Result <;>
              simp [Outcome.mapState, aggregates.TaskRun.withoutCreatedAt, hm]
        | TaskFailed m =>
          simp [aggregates.TaskRun.ApplyEvent, hU, Outcome.mapState,
            aggregates.TaskRun.withoutCreatedAt, hm]
        | TaskSkipped m =>
          simp only [aggregates.TaskRun.ApplyEvent, hU]
          cases st1 <;> simp [Outcome.mapState, aggregates.TaskRun.withoutCreatedAt, hm]
        | Other tn =>
          simp [aggregates.TaskRun.ApplyEvent, hU, Outcome.mapState,
            aggregates.TaskRun.withoutCreatedAt, hm]

/-- Replays of one event sequence from entities that agree up to the creation stamp end
in the same kind of outcome, with the same error value and with projections that agree on
Spec, Status and the id of the metadata, whatever creation stamps the metadata helper
writes in either replay. Only the creation stamp of the metadata is left to that helper. -/
theorem replay_agrees_up_to_createdAt
    (U : fes.Event → Except String fes.Message)
    (l1 l2 : List (Option types.Timestamp × fes.Event)) (ti1 ti2 : aggregates.TaskRun)
    (hev : l1.map Prod.snd = l2.map Prod.snd)
    (h : ti1.withoutCreatedAt = ti2.withoutCreatedAt) :
    (aggregates.TaskRun.replay U ti1 l1).mapState aggregates.TaskRun.withoutCreatedAt
      = (aggregates.TaskRun.replay U ti2 l2).mapState aggregates.TaskRun.withoutCreatedAt := by
  induction l1 generalizing l2 ti1 ti2 with
  | nil =>
    cases l2 with
    | nil => simp only [aggregates.TaskRun.replay, Outcome.mapState, h]
    | cons hd tl => simp at hev
  | cons hd1 tl1 ih =>
    cases l2 with
    | nil => simp at hev
    | cons hd2 tl2 =>
      obtain ⟨c1, ev1⟩ := hd1
      obtain ⟨c2, ev2⟩ := hd2
      simp only [List.map_cons, List.cons.injEq] at hev
      obtain ⟨hev1, hev2⟩ := hev
      subst hev1
      have hstep := applyEvent_agrees_up_to_createdAt U c1 c2 ti1 ti2 ev1 h
      simp only [aggregates.TaskRun.replay]
      cases h1 : aggregates.TaskRun.ApplyEvent U c1 ti1 ev1 with
      | returned s1 v1 =>
        cases h2 : aggregates.TaskRun.ApplyEvent U c2 ti2 ev1 with
        | returned s2 v2 =>
          rw [h1, h2] at hstep
          simp only [Outcome.mapState, Outcome.returned.injEq] at hstep
          obtain ⟨hs, hv⟩ := hstep
          subst hv
          cases v1 with
          | none => exact ih tl2 s1 s2 hev2 hs
          | some err => simp only [Outcome.mapState, hs]
        | panicked s2 =>
          rw [h1, h2] at hstep
          simp [Outcome.mapState] at hstep
      | panicked s1 =>
        cases h2 : aggregates.TaskRun.ApplyEvent U c2 ti2 ev1 with
        | returned s2 v2 =>
          rw [h1, h2] at hstep
          simp [Outcome.mapState] at hstep
        | panicked s2 =>
          rw [h1, h2] at hstep
          simp only [Outcome.mapState, Outcome.panicked.injEq] at hstep
          simp only [Outcome.mapState, hstep]

/-! ## Finality of a recorded status under the operations of the runtime -/

/-- A write through a pointer under one key leaves the lookup of every other key alone. -/
theorem GoMap.get_poke_other {V : Type} (m : GoMap V) (k k2 : String) (v : V) (h : k2 ≠ k) :
    (m.poke k v).get k2 = m.get k2 := by
  cases m with
  | nil => rfl
  | alloc l => simp only [GoMap.poke, GoMap.get, GoMap.find_store_other k k2 v l h]

/-- An assignment under one key leaves the lookup of every other key alone. -/
theorem GoMap.get_set_other {V : Type} (m r : GoMap V) (k k2 : String) (v : V)
    (hset : m.set k v = some r) (h : k2 ≠ k) : r.get k2 = m.get k2 := by
  cases m with
  | nil => simp [GoMap.set] at hset
  | alloc l =>
    simp only [GoMap.set, Option.some.injEq] at hset
    subst hset
    simp only [GoMap.get, GoMap.find_store_other k k2 v l h]

/-- What `reportsFinal` reads: the record under the id and the status it points to. -/
theorem mock.reportsFinal_eq (mk : mock.Runtime) (id : String) :
    mk.reportsFinal id =
      (match mk.AsyncResults.get id with
       | some (some inv) =>
         (match inv.Status with
          | some st => st.Finished
          | none => false)
       | _ => false) := by
  unfold mock.Runtime.reportsFinal mock.Runtime.Status
  cases h : mk.AsyncResults.get id with
  | none => simp [Outcome.value]
  | some e =>
    cases e with
    | none => simp [Outcome.value]
    | some inv =>
      cases hs : inv.Status with
      | none => simp [Outcome.value, hs]
      | some st => simp [Outcome.value, hs]

/-- Runtimes that agree on the lookup of an id agree on whether its status is final. -/
theorem mock.reportsFinal_congr (mk1 mk2 : mock.Runtime) (id : String)
    (h : mk2.AsyncResults.get id = mk1.AsyncResults.get id) :
    mk2.reportsFinal id = mk1.reportsFinal id := by
  rw [mock.reportsFinal_eq, mock.reportsFinal_eq, h]

/-- Replacing, under a key the map holds, the record by one whose status is final keeps
every final status final. -/
theorem mock.reportsFinal_poke (mk : mock.Runtime) (id k : String)
    (rec : types.TaskRun) (st : types.TaskRunStatus) (v0 : Option types.TaskRun)
    (hk : mk.AsyncResults.get k = some v0)
    (hst : rec.Status = some st) (hfin : st.Finished = true)
    (h : mk.reportsFinal id = true) :
    mock.Runtime.reportsFinal
      { mk with AsyncResults := mk.AsyncResults.poke k (some rec) } id = true := by
  by_cases hid : id = k
  · subst hid
    rw [mock.reportsFinal_eq]
    simp only [GoMap.get_poke_same _ _ _ _ hk, hst, hfin]
  · rw [mock.reportsFinal_congr mk _ id (GoMap.get_poke_other _ _ _ _ hid)]
    exact h

/-- MockComplete keeps a final status final: it writes FAILED or SUCCEEDED, or nothing. -/
theorem mock.mockComplete_keeps_final (now : types.Timestamp) (mk : mock.Runtime)
    (id k : String) (h : mk.reportsFinal id = true) :
    (mock.Runtime.MockComplete now mk k).state.reportsFinal id = true := by
  cases hk : mk.AsyncResults.get k with
  | none =>
    simp only [mock.Runtime.MockComplete, hk, Outcome.state]
    exact h
  | some e =>
    cases e with
    | none =>
      simp only [mock.Runtime.MockComplete, hk, Outcome.state]
      exact h
    | some invocation =>
      cases hs : invocation.Spec with
      | none =>
        simp only [mock.Runtime.MockComplete, hk, hs, Outcome.state]
        exact h
      | some spec =>
        cases hr : spec.FnRef with
        | none =>
          simp only [mock.Runtime.MockComplete, hk, hs, hr, Outcome.state]
          exact h
        | some ref =>
          cases hf : mk.Functions.get ref.ID with
          | none =>
            simp only [mock.Runtime.MockComplete, hk, hs, hr, hf, Outcome.state]
            exact h
          | some f =>
            cases f with
            | none =>
              simp only [mock.Runtime.MockComplete, hk, hs, hr, hf, Outcome.state]
              exact h
            | some fn =>
              rcases hres : fn (some spec) with ⟨res, err⟩
              cases err with
              | none =>
                simp only [mock.Runtime.MockComplete, hk, hs, hr, hf, hres, Outcome.state]
                exact mock.reportsFinal_poke mk id k _ _ _ hk rfl rfl h
              | some e =>
                simp only [mock.Runtime.MockComplete, hk, hs, hr, hf, hres, Outcome.state]
                exact mock.reportsFinal_poke mk id k _ _ _ hk rfl rfl h

/-- InvokeAsync with an identifier other than `id` keeps a final status of `id` final: it
adds a record under the new identifier and completes at most that one. -/
theorem mock.invokeAsync_keeps_final (uid : String) (t1 t2 t3 : types.Timestamp)
    (mk : mock.Runtime) (spec : Option types.TaskRunSpec) (id : String)
    (hne : id ≠ uid) (h : mk.reportsFinal id = true) :
    (mock.Runtime.InvokeAsync uid t1 t2 t3 mk spec).state.reportsFinal id = true := by
  cases spec with
  | none =>
    simp only [mock.Runtime.InvokeAsync, Outcome.state]
    exact h
  | some sp =>
    cases hr : sp.FnRef with
    | none =>
      simp only [mock.Runtime.InvokeAsync, hr, Outcome.state]
      exact h
    | some ref =>
      cases hf : mk.Functions.get ref.ID with
      | none =>
        simp only [mock.Runtime.InvokeAsync, hr, hf, Outcome.state]
        exact h
      | some f =>
        cases hset : mk.AsyncResults.set uid (some
            { Metadata := some { Id := uid, CreatedAt := some t1 },
              Spec := some sp,
              Status := some
                { Status := types.TaskRunStatus_Status.IN_PROGRESS,
                  UpdatedAt := some t2,
                  Output := none,
                  Error := none } }) with
        | none =>
          simp only [mock.Runtime.InvokeAsync, hr, hf, hset, Outcome.state]
          exact h
        | some results =>
          have h1 : ∀ mk1 : mock.Runtime, mk1.AsyncResults = results →
              mk1.reportsFinal id = true := by
            intro mk1 hres
            rw [mock.reportsFinal_congr mk mk1 id
              (by rw [hres]; exact GoMap.get_set_other _ _ _ _ _ hset hne)]
            exact h
          cases hman : mk.ManualExecution with
          | true =>
            simp only [mock.Runtime.InvokeAsync, hr, hf, hset, hman, if_true, Outcome.state]
            exact h1 _ rfl
          | false =>
            simp only [mock.Runtime.InvokeAsync, hr, hf, hset, hman, Bool.false_eq_true,
              if_false]
            generalize hgen : mock.Runtime.mk mk.Functions results false = mk1
            have h2 := mock.mockComplete_keeps_final t3 mk1 id uid
              (h1 mk1 (by rw [← hgen]))
            cases hmc : mock.Runtime.MockComplete t3 mk1 uid with
            | returned s v =>
              rw [hmc] at h2
              cases v with
              | none => exact h2
              | some e => exact h2
            | panicked s =>
              rw [hmc] at h2
              exact h2

/-- Invoke with an identifier other than `id` keeps a final status of `id` final. -/
theorem mock.invoke_keeps_final (uid : String) (t1 t2 t3 t4 : types.Timestamp)
    (mk : mock.Runtime) (spec : Option types.TaskRunSpec) (id : String)
    (hne : id ≠ uid) (h : mk.reportsFinal id = true) :
    (mock.Runtime.Invoke uid t1 t2 t3 t4 mk spec).state.reportsFinal id = true := by
  have h1 := mock.invokeAsync_keeps_final uid t1 t2 t3 mk spec id hne h
  unfold mock.Runtime.Invoke
  cases hia : mock.Runtime.InvokeAsync uid t1 t2 t3 mk spec with
  | panicked s =>
    rw [hia] at h1
    exact h1
  | returned s v =>
    rw [hia] at h1
    obtain ⟨invocationID, err⟩ := v
    cases err with
    | some e => exact h1
    | none =>
      have h2 := mock.mockComplete_keeps_final t4 s id invocationID h1
      simp only
      cases hmc : mock.Runtime.MockComplete t4 s invocationID with
      | panicked s2 =>
        rw [hmc] at h2
        exact h2
      | returned s2 v2 =>
        rw [hmc] at h2
        cases v2 with
        | some e => exact h2
        | none =>
          simp only [Outcome.state] at h2
          simp only [mock.Runtime.Status]
          cases hg : s2.AsyncResults.get invocationID with
          | none => exact h2
          | some e =>
            cases e with
            | none => exact h2
            | some inv => exact h2

/-- Cancel keeps a final status final: it writes ABORTED, or nothing. -/
theorem mock.cancel_keeps_final (now : types.Timestamp) (mk : mock.Runtime)
    (id k : String) (h : mk.reportsFinal id = true) :
    (mock.Runtime.Cancel now mk k).state.reportsFinal id = true := by
  cases hk : mk.AsyncResults.get k with
  | none =>
    simp only [mock.Runtime.Cancel, hk, Outcome.state]
    exact h
  | some e =>
    cases e with
    | none =>
      simp only [mock.Runtime.Cancel, hk, Outcome.state]
      exact h
    | some invocation =>
      simp only [mock.Runtime.Cancel, hk, Outcome.state]
      exact mock.reportsFinal_poke mk id k _ _ _ hk rfl rfl h

/-- Status leaves the runtime as it was. -/
theorem mock.status_state (mk : mock.Runtime) (k : String) :
    (mock.Runtime.Status mk k).state = mk := by
  unfold mock.Runtime.Status
  cases hk : mk.AsyncResults.get k with
  | none => rfl
  | some e =>
    cases e with
    | none => rfl
    | some inv => rfl

/-- A key that reports a final status is not a fresh identifier. -/
theorem mock.ne_of_final_of_fresh (mk : mock.Runtime) (id uid : String)
    (h : mk.reportsFinal id = true) (hfresh : (mk.AsyncResults.get uid).isNone = true) :
    id ≠ uid := by
  intro heq
  subst heq
  rw [mock.reportsFinal_eq] at h
  cases hg : mk.AsyncResults.get id with
  | none => simp [hg] at h
  | some e => simp [hg] at hfresh

/-- Every single operation that draws a fresh identifier keeps a final status final. -/
theorem mock.op_keeps_final (mk : mock.Runtime) (op : mock.Op) (id : String)
    (hfresh : op.fresh mk = true) (h : mk.reportsFinal id = true) :
    (op.run mk).reportsFinal id = true := by
  cases op with
  | InvokeAsync uid t1 t2 t3 spec =>
    exact mock.invokeAsync_keeps_final uid t1 t2 t3 mk spec id
      (mock.ne_of_final_of_fresh mk id uid h hfresh) h
  | MockComplete now k => exact mock.mockComplete_keeps_final now mk id k h
  | Invoke uid t1 t2 t3 t4 spec =>
    exact mock.invoke_keeps_final uid t1 t2 t3 t4 mk spec id
      (mock.ne_of_final_of_fresh mk id uid h hfresh) h
  | Cancel now k => exact mock.cancel_keeps_final now mk id k h
  | Status k =>
    simp only [mock.Op.run, mock.status_state]
    exact h
  | Notify taskID fn expectedAt => exact h

/-- C12: once Status(id) reports a final status, it reports a final status after every
further sequence of operations of the runtime (InvokeAsync and Invoke drawing fresh
identifiers, MockComplete, Cancel, Status, Notify), whether the calls return or panic. -/
theorem status_stays_final (mk : mock.Runtime) (id : String) (ops : List mock.Op)
    (hfin : mk.reportsFinal id = true) (hfresh : mock.allFresh mk ops = true) :
    (mock.runAll mk ops).reportsFinal id = true := by
  induction ops generalizing mk with
  | nil => exact hfin
  | cons op rest ih =>
    simp only [mock.allFresh, Bool.and_eq_true] at hfresh
    exact ih (op.run mk) (mock.op_keeps_final mk op id hfresh.1 hfin) hfresh.2

/-- The cancelled sample invocation stays final through the sample calls that follow. -/
theorem status_stays_final_witness :
    sample.cancelledRuntime.reportsFinal "inv-1" = true ∧
    mock.allFresh sample.cancelledRuntime sample.laterOps = true ∧
    (mock.runAll sample.cancelledRuntime sample.laterOps).reportsFinal "inv-1" = true :=
  ⟨rfl, rfl,
   status_stays_final sample.cancelledRuntime "inv-1" sample.laterOps rfl rfl⟩

/-! ## Invoke on a failing function -/

/-- C13, as stated, fails: on the sample runtime whose function `f` fails, Invoke returns
without error a FAILED status, but the Error field of that status is absent; the error
the function returned is not carried by the status. -/
theorem invoke_failed_without_error_detail :
    (sample.failing (some sample.spec)).2 = some "boom" ∧
    (mock.Runtime.Invoke "inv-1" (sample.at_ 1) (sample.at_ 1) (sample.at_ 2) (sample.at_ 3)
      sample.failingRuntime (some sample.spec)).value
      = some
          (some
            { Status := types.TaskRunStatus_Status.FAILED,
              UpdatedAt := some { Seconds := 3, Nanos := 0 },
              Output := none,
              Error := none },
           none) := by
  constructor
  · rfl
  · rfl

/-- C13, amended: for a spec whose function is registered and returns an error when
called, Invoke returns a nil error together with a terminal status whose value is FAILED;
that status has neither Output nor Error, its UpdatedAt is the clock reading of the last
completion. -/
theorem invoke_failing_function (uid : String) (t1 t2 t3 t4 : types.Timestamp)
    (mk : mock.Runtime) (sp : types.TaskRunSpec) (ref : types.FnRef) (fn : mock.Func)
    (e : String) (l : List (String × Option types.TaskRun))
    (hsp : sp.FnRef = some ref) (hfn : mk.Functions.get ref.ID = some (some fn))
    (herr : (fn (some sp)).2 = some e) (hmap : mk.AsyncResults = GoMap.alloc l) :
    (mock.Runtime.Invoke uid t1 t2 t3 t4 mk (some sp)).value
      = some
          (some
            { Status := types.TaskRunStatus_Status.FAILED,
              UpdatedAt := some t4,
              Output := none,
              Error := none },
           none) ∧
    types.TaskRunStatus.Finished
      { Status := types.TaskRunStatus_Status.FAILED,
        UpdatedAt := some t4,
        Output := none,
        Error := none } = true := by
  refine ⟨?_, rfl⟩
  rcases hres : fn (some sp) with ⟨res, err⟩
  rw [hres] at herr
  simp only at herr
  subst herr
  cases hman : mk.ManualExecution with
  | true =>
    simp only [mock.Runtime.Invoke, mock.Runtime.InvokeAsync, hsp, hfn, hmap, GoMap.set,
      hman, if_true, mock.Runtime.MockComplete, GoMap.get_alloc, GoMap.find_store_same,
      hres, mock.Runtime.Status, GoMap.poke_alloc, Outcome.value]
  | false =>
    simp only [mock.Runtime.Invoke, mock.Runtime.InvokeAsync, hsp, hfn, hmap, GoMap.set,
      hman, Bool.false_eq_true, if_false, mock.Runtime.MockComplete, GoMap.get_alloc,
      GoMap.find_store_same, hres, mock.Runtime.Status, GoMap.poke_alloc, Outcome.value]

/-- Invoke of the failing sample function on the sample runtime. -/
theorem invoke_failing_function_witness :
    (mock.Runtime.Invoke "inv-1" (sample.at_ 1) (sample.at_ 1) (sample.at_ 2) (sample.at_ 3)
      sample.failingRuntime (some sample.spec)).value
      = some
          (some
            { Status := types.TaskRunStatus_Status.FAILED,
              UpdatedAt := some (sample.at_ 3),
              Output := none,
              Error := none },
           none) ∧
    types.TaskRunStatus.Finished
      { Status := types.TaskRunStatus_Status.FAILED,
        UpdatedAt := some (sample.at_ 3),
        Output := none,
        Error := none } = true :=
  invoke_failing_function "inv-1" (sample.at_ 1) (sample.at_ 1) (sample.at_ 2) (sample.at_ 3)
    sample.failingRuntime sample.spec { ID := "f" } sample.failing "boom" [] rfl rfl rfl rfl

/-! ## Properties of task specs -/

/-- Assigning twice under one key is assigning the second value. -/
theorem GoMap.store_store {V : Type} (k : String) (v1 v2 : V) (l : List (String × V)) :
    GoMap.store k v2 (GoMap.store k v1 l) = GoMap.store k v2 l := by
  induction l with
  | nil => simp [GoMap.store]
  | cons hd tl ih =>
    obtain ⟨k1, w⟩ := hd
    by_cases h : k1 = k
    · simp [GoMap.store, h]
    · simp [GoMap.store, h, ih]

/-- The entries a map holds under a key: the one the lookup finds, and no other. -/
theorem GoMap.items_filter_key {V : Type} (k : String) (l : List (String × V)) :
    (GoMap.items l).filter (fun e => decide (e.1 = k))
      = (match GoMap.find k l with
         | none => []
         | some v => [(k, v)]) := by
  induction l with
  | nil => simp [GoMap.items, GoMap.find]
  | cons hd tl ih =>
    obtain ⟨k1, w⟩ := hd
    by_cases h : k1 = k
    · subst h
      have hnone : ((GoMap.items tl).filter (fun e => decide (e.1 ≠ k1))).filter
          (fun e => decide (e.1 = k1)) = [] := by
        rw [List.filter_filter]
        apply List.filter_eq_nil_iff.mpr
        intro a _
        simp
      simp [GoMap.items, GoMap.find, hnone]
    · have hcomm : ((GoMap.items tl).filter (fun e => decide (e.1 ≠ k1))).filter
          (fun e => decide (e.1 = k))
          = ((GoMap.items tl).filter (fun e => decide (e.1 = k))).filter
              (fun e => decide (e.1 ≠ k1)) := by
        rw [List.filter_filter, List.filter_filter]
        congr 1
        funext a
        exact Bool.and_comm _ _
      simp only [GoMap.items, GoMap.find, h, if_false, List.filter_cons, decide_False,
        Bool.false_eq_true, hcomm, ih]
      cases GoMap.find k tl with
      | none => simp
      | some v => simp [Ne.symm h]

/-- A map without entries is nil or allocated and empty. -/
theorem GoMap.entries_eq_nil {V : Type} (m : GoMap V) (h : m.entries = []) :
    m = GoMap.nil ∨ m = GoMap.alloc [] := by
  cases m with
  | nil => exact Or.inl rfl
  | alloc l =>
    cases l with
    | nil => exact Or.inr rfl
    | cons hd tl =>
      obtain ⟨k, v⟩ := hd
      simp [GoMap.entries, GoMap.items] at h

/-- C14: after Require(t, p1) followed by Require(t, p2) the map Requires holds, under `t`,
exactly one record, `p2`; the entry of every other task id is as before, and so are the
other fields of the spec. Hence, on a spec without dependencies, a second Require of `t`
with parameters that are not of the dynamic-output kind makes Parent report no parent,
whatever the first Require stored and in whatever order the map is visited. -/
theorem require_last_write_wins (m : types.TaskSpec) (t : String)
    (p1 p2 : Option types.TaskDependencyParameters) :
    ((m.Require t [p1]).Require t [p2]).Requires.get t = some p2 ∧
    ((m.Require t [p1]).Require t [p2]).Requires.entries.filter (fun e => decide (e.1 = t))
      = [(t, p2)] ∧
    (∀ k, k ≠ t → ((m.Require t [p1]).Require t [p2]).Requires.get k = m.Requires.get k) ∧
    ((m.Require t [p1]).Require t [p2]).FunctionRef = m.FunctionRef ∧
    ((m.Require t [p1]).Require t [p2]).Inputs = m.Inputs ∧
    ((m.Require t [p1]).Require t [p2]).Await = m.Await ∧
    (m.Requires.entries = [] →
      ∀ q : types.TaskDependencyParameters, p2 = some q →
        q.Type_ ≠ types.TaskDependencyParameters_DependencyType.DYNAMIC_OUTPUT →
        ∀ order, order.Perm ((m.Require t [p1]).Require t [p2]).Requires.entries →
          types.TaskSpec.Parent order ((m.Require t [p1]).Require t [p2])
            = Outcome.returned ((m.Require t [p1]).Require t [p2]) ("", false)) := by
  have hreq : ((m.Require t [p1]).Require t [p2]).Requires
      = GoMap.alloc (GoMap.store t p2
          (match m.Requires with
           | GoMap.nil => []
           | GoMap.alloc l => l)) := by
    simp only [types.TaskSpec.Require, GoMap.store_store]
  refine ⟨?_, ?_, ?_, rfl, rfl, rfl, ?_⟩
  · rw [hreq, GoMap.get_alloc, GoMap.find_store_same]
  · rw [hreq]
    simp only [GoMap.entries, GoMap.items_filter_key, GoMap.find_store_same]
  · intro k hk
    rw [hreq, GoMap.get_alloc, GoMap.find_store_other t k p2 _ hk]
    cases m.Requires with
    | nil => rfl
    | alloc l => rfl
  · intro hempty q hq hkind order hperm
    rw [hreq] at hperm
    have hl : (match m.Requires with
        | GoMap.nil => []
        | GoMap.alloc l => l) = ([] : List (String × Option types.TaskDependencyParameters)) := by
      rcases GoMap.entries_eq_nil _ hempty with h | h <;> rw [h]
    rw [hl] at hperm
    simp only [GoMap.entries, GoMap.store, GoMap.items, List.filter_nil] at hperm
    have horder : order = [(t, p2)] := List.perm_singleton.mp hperm
    subst hq
    simp only [types.TaskSpec.Parent, horder, types.parentLoop, hkind, if_false]

/-- Scenario D: Require of `t1` as dynamic output, then as a static dependency. -/
theorem require_last_write_wins_witness :
    ((sample.taskSpec.Require "t1" [some sample.dynamicOutput]).Require "t1"
      [some sample.static]).Requires = GoMap.alloc [("t1", some sample.static)] ∧
    types.TaskSpec.Parent [("t1", some sample.static)]
        ((sample.taskSpec.Require "t1" [some sample.dynamicOutput]).Require "t1"
          [some sample.static])
      = Outcome.returned
          ((sample.taskSpec.Require "t1" [some sample.dynamicOutput]).Require "t1"
            [some sample.static]) ("", false) :=
  ⟨rfl,
   (require_last_write_wins sample.taskSpec "t1" (some sample.dynamicOutput)
      (some sample.static)).2.2.2.2.2.2 rfl sample.static rfl (by decide)
      [("t1", some sample.static)] (List.Perm.refl _)⟩

/-- When every entry visited carries parameters, the loop of Parent returns: with the flag
set and the id of an entry of the dynamic-output kind, or with the flag unset, the empty
id and no entry of that kind among those visited. -/
theorem parentLoop_of_params_present
    (order : List (String × Option types.TaskDependencyParameters))
    (hpresent : ∀ e ∈ order, e.2 ≠ none) :
    ∃ r, types.parentLoop order = some r ∧
      (r.2 = true →
        (r.1, some { Type_ := types.TaskDependencyParameters_DependencyType.DYNAMIC_OUTPUT })
          ∈ order) ∧
      (r.2 = false → r.1 = "" ∧
        ∀ e ∈ order,
          e.2 ≠ some { Type_ := types.TaskDependencyParameters_DependencyType.DYNAMIC_OUTPUT }) := by
  induction order with
  | nil => exact ⟨("", false), rfl, by simp, by simp⟩
  | cons hd tl ih =>
    obtain ⟨id, params⟩ := hd
    cases params with
    | none => exact absurd rfl (hpresent (id, none) (List.mem_cons_self _ _))
    | some p =>
      obtain ⟨kind⟩ := p
      by_cases hk : kind = types.TaskDependencyParameters_DependencyType.DYNAMIC_OUTPUT
      · subst hk
        exact ⟨(id, true), by simp [types.parentLoop], by simp, by simp⟩
      · obtain ⟨r, hr, h1, h2⟩ := ih (fun e he => hpresent e (List.mem_cons_of_mem _ he))
        refine ⟨r, by simp [types.parentLoop, hk, hr], ?_, ?_⟩
        · intro hflag
          exact List.mem_cons_of_mem _ (h1 hflag)
        · intro hflag
          refine ⟨(h2 hflag).1, ?_⟩
          intro e he
          rcases List.mem_cons.mp he with heq | hmem
          · subst heq
            simp [hk]
          · exact (h2 hflag).2 e hmem

/-- C15, the failing input: after Require of `t1` without dependency parameters the map
Requires holds the nil pointer under `t1`, and Parent, which reads `params.Type` of every
entry it visits, panics on it instead of returning. -/
theorem parent_panics_after_bare_require :
    (sample.taskSpec.Require "t1" []).Requires.entries = [("t1", none)] ∧
    types.TaskSpec.Parent [("t1", none)] (sample.taskSpec.Require "t1" [])
      = Outcome.panicked (sample.taskSpec.Require "t1" []) := by
  constructor
  · rfl
  · rfl

/-- Looking up a key after copying every value of an entry list. -/
theorem GoMap.find_map_values {V : Type} (f : V → V) (k : String) (l : List (String × V)) :
    GoMap.find k (l.map (fun kv => (kv.1, f kv.2))) = (GoMap.find k l).map f := by
  induction l with
  | nil => rfl
  | cons hd tl ih =>
    obtain ⟨k1, v⟩ := hd
    by_cases h : k1 = k
    · simp [GoMap.find, h]
    · simp [GoMap.find, h, ih]

/-- The copy of a map field answers every lookup with the copy of what the original
answers. -/
theorem types.get_cloneMap {V : Type} (f : V → V) (m : GoMap V) (k : String) :
    (types.cloneMap f m).get k = (m.get k).map f := by
  cases m with
  | nil => rfl
  | alloc l =>
    cases l with
    | nil => rfl
    | cons e tl =>
      simp only [types.cloneMap, GoMap.get]
      exact GoMap.find_map_values f k (e :: tl)

/-- The copy of a map field without entries is the nil map. -/
theorem types.cloneMap_of_no_entries {V : Type} (f : V → V) (m : GoMap V)
    (h : m.entries = []) : types.cloneMap f m = GoMap.nil := by
  rcases GoMap.entries_eq_nil m h with h1 | h1 <;> rw [h1] <;> rfl

/-- C16, as stated, fails: Overlay on a base spec whose Inputs map is allocated and empty
returns a spec whose Inputs map is nil, which is not the Inputs of the base. -/
theorem overlay_drops_empty_inputs :
    sample.emptyInputsSpec.Inputs = GoMap.alloc [] ∧
    types.TaskSpec.Overlay none none sample.emptyInputsSpec (some sample.overlaySpec)
      = Outcome.returned (sample.emptyInputsSpec, some sample.overlaySpec)
          { FunctionRef := "f",
            Inputs := GoMap.nil,
            Requires := GoMap.alloc [("t1", some sample.static)],
            Await := 2 } ∧
    (GoMap.nil : GoMap (Option types.TypedValue)) ≠ sample.emptyInputsSpec.Inputs := by
  refine ⟨rfl, rfl, ?_⟩
  intro h
  cases h

/-- C16, amended: Overlay on a base spec `m` with the overlay `o` leaves `m` and `o` as
they were and returns a new spec whose Requires and Await are those of `o`, whose function
reference is that of `m` and whose Inputs is the copy proto.Clone makes of the Inputs of
`m`: nil when the Inputs of `m` has no entry (also when it is allocated and empty), and
otherwise a map with the same keys, holding under each key a copy of the typed value of
`m`, with the same type tag, bytes and labels. -/
theorem overlay_clones_base (nilInput : Option types.TypedValue)
    (nilParams : Option types.TaskDependencyParameters) (m o : types.TaskSpec) :
    types.TaskSpec.Overlay nilInput nilParams m (some o)
      = Outcome.returned (m, some o)
          { FunctionRef := m.FunctionRef,
            Inputs := types.cloneMap (types.cloneEntry nilInput types.cloneTypedValue) m.Inputs,
            Requires := o.Requires,
            Await := o.Await } ∧
    (m.Inputs.entries = [] →
      types.cloneMap (types.cloneEntry nilInput types.cloneTypedValue) m.Inputs = GoMap.nil) ∧
    (∀ k, m.Inputs.get k = none →
      (types.cloneMap (types.cloneEntry nilInput types.cloneTypedValue) m.Inputs).get k
        = none) ∧
    (∀ k, m.Inputs.get k = some none →
      (types.cloneMap (types.cloneEntry nilInput types.cloneTypedValue) m.Inputs).get k
        = some nilInput) ∧
    (∀ k tv, m.Inputs.get k = some (some tv) →
      (types.cloneMap (types.cloneEntry nilInput types.cloneTypedValue) m.Inputs).get k
        = some (some (types.cloneTypedValue tv)) ∧
      (types.cloneTypedValue tv).Type_ = tv.Type_ ∧
      (types.cloneTypedValue tv).Value = tv.Value ∧
      ∀ label, (types.cloneTypedValue tv).Labels.get label = tv.Labels.get label) := by
  refine ⟨rfl, types.cloneMap_of_no_entries _ _, ?_, ?_, ?_⟩
  · intro k h
    rw [types.get_cloneMap, h]
    rfl
  · intro k h
    rw [types.get_cloneMap, h]
    rfl
  · intro k tv h
    refine ⟨?_, rfl, rfl, ?_⟩
    · rw [types.get_cloneMap, h]
      rfl
    · intro label
      simp only [types.cloneTypedValue, types.get_cloneMap, Option.map_id_fun, id_eq]

/-- Overlay of the sample overlay on the sample spec with one input: the dependency and
await count come from the overlay, the function reference and the input from the base. -/
theorem overlay_clones_base_witness :
    types.TaskSpec.Overlay none none sample.inputSpec (some sample.overlaySpec)
      = Outcome.returned (sample.inputSpec, some sample.overlaySpec)
          { FunctionRef := "g",
            Inputs := GoMap.alloc
              [("x", some { Type_ := "int", Value := [42],
                            Labels := GoMap.alloc [("src", "user")] })],
            Requires := GoMap.alloc [("t1", some sample.static)],
            Await := 2 } :=
  (overlay_clones_base none none sample.inputSpec sample.overlaySpec).1

/-! ## Properties of workflows, aggregates and events -/

/-- Task reports found exactly when the id is a key of Spec.Tasks, on a workflow whose Spec,
Status and Metadata are present. -/
theorem workflow_task_found_iff (now : types.Timestamp) (m : types.Workflow) (id : String)
    (wspec : types.WorkflowSpec) (wstatus : types.WorkflowStatus) (md : types.ObjectMetadata)
    (hspec : m.Spec = some wspec) (hstatus : m.Status = some wstatus)
    (hmd : m.Metadata = some md) :
    (types.Workflow.Task now m id).value.map Prod.snd
      = some (wspec.Tasks.get id).isSome := by
  cases hget : wspec.Tasks.get id with
  | none =>
    simp only [types.Workflow.Task, hspec, hget, Outcome.value, Option.isSome, Option.map]
  | some spec =>
    simp only [types.Workflow.Task, hspec, hstatus, hmd, hget, Outcome.value,
      Option.isSome, Option.map]

/-- When the task map of the status is allocated, Task composes the spec entry with the
status entry of the id, or with a default status stamped with the clock reading when the
map has no entry for the id. -/
theorem workflow_task_with_status_map (now : types.Timestamp) (m : types.Workflow)
    (id : String) (wspec : types.WorkflowSpec) (wstatus : types.WorkflowStatus)
    (md : types.ObjectMetadata) (spec : Option types.TaskSpec)
    (l : List (String × Option types.TaskStatus))
    (hspec : m.Spec = some wspec) (hstatus : m.Status = some wstatus)
    (hmd : m.Metadata = some md) (hget : wspec.Tasks.get id = some spec)
    (hmap : wstatus.Tasks = GoMap.alloc l) :
    types.Workflow.Task now m id
      = Outcome.returned m
          (some
            { Metadata := some { Id := id, CreatedAt := md.CreatedAt },
              Spec := spec,
              Status :=
                (match GoMap.find id l with
                 | some status => status
                 | none => some { UpdatedAt := some now }) },
           true) := by
  cases hfind : GoMap.find id l with
  | none => simp only [types.Workflow.Task, hspec, hstatus, hmd, hget, hmap, hfind]; rfl
  | some status =>
    simp only [types.Workflow.Task, hspec, hstatus, hmd, hget, hmap, hfind]; rfl

/-- When the task map of the status is nil, the flag set by the lookup of the spec is never
cleared, no default status is made, and the task Task returns has no Status. -/
theorem workflow_task_nil_status_map (now : types.Timestamp) (m : types.Workflow)
    (id : String) (wspec : types.WorkflowSpec) (wstatus : types.WorkflowStatus)
    (md : types.ObjectMetadata) (spec : Option types.TaskSpec)
    (hspec : m.Spec = some wspec) (hstatus : m.Status = some wstatus)
    (hmd : m.Metadata = some md) (hget : wspec.Tasks.get id = some spec)
    (hmap : wstatus.Tasks = GoMap.nil) :
    types.Workflow.Task now m id
      = Outcome.returned m
          (some
            { Metadata := some { Id := id, CreatedAt := md.CreatedAt },
              Spec := spec,
              Status := none },
           true) := by
  simp only [types.Workflow.Task, hspec, hstatus, hmd, hget, hmap]
  rfl

/-- C17, the failing input: on the sample workflow, whose status holds a nil task map, Task
finds the task `a` and returns it with Metadata.Id `a` and the spec entry, but with an
absent Status; no default status is synthesized. -/
theorem workflow_task_status_absent :
    types.Workflow.Task (sample.at_ 9) sample.workflow "a"
      = Outcome.returned sample.workflow
          (some
            { Metadata := some { Id := "a", CreatedAt := some (sample.at_ 1) },
              Spec := some sample.taskSpec,
              Status := none },
           true) := by
  rfl

/-- C18, the failing input: NewEvent with a nil payload does not return. The Data field
stays absent, but the Type field asks for the type of the zero reflection value of the nil
payload, and that panics; this holds for every aggregate and clock reading. -/
theorem newEvent_nil_payload_panics {M : Type} (typeName : M → String)
    (MarshalAny : M → Except String fes.Any) (now : types.Timestamp)
    (aggregate : fes.Aggregate) :
    fes.NewEvent typeName MarshalAny now aggregate none = Outcome.panicked () := by
  rfl

/-- NewEvent with a payload: it returns the error of the serialization when that fails,
and otherwise an event carrying the aggregate, the serialized payload, the clock reading
and the dynamic type name of the payload. -/
theorem newEvent_with_payload {M : Type} (typeName : M → String)
    (MarshalAny : M → Except String fes.Any) (now : types.Timestamp)
    (aggregate : fes.Aggregate) (p : M) :
    (∀ err, MarshalAny p = Except.error err →
      fes.NewEvent typeName MarshalAny now aggregate (some p)
        = Outcome.returned () (none, some err)) ∧
    (∀ d, MarshalAny p = Except.ok d →
      fes.NewEvent typeName MarshalAny now aggregate (some p)
        = Outcome.returned ()
            (some
              { Aggregate := some aggregate,
                Data := some d,
                Timestamp := some now,
                Type_ := typeName p },
             none)) := by
  constructor
  · intro err h
    simp only [fes.NewEvent, h]
  · intro d h
    simp only [fes.NewEvent, h]

/-- A string has no bytes exactly when it is the empty string. -/
theorem utf8ByteSize_eq_zero_iff (s : String) : s.utf8ByteSize = 0 ↔ s = "" := by
  obtain ⟨cs⟩ := s
  cases cs with
  | nil => simp [String.utf8ByteSize, String.utf8ByteSize.go]
  | cons c tl =>
    have hpos := Char.utf8Size_pos c
    simp only [String.utf8ByteSize, String.utf8ByteSize.go]
    constructor
    · intro h
      omega
    · intro h
      have hdata := congrArg String.data h
      simp at hdata

/-- C19: NewAggregate returns the aggregate with exactly the type and id given;
validateAggregate returns an error exactly when the Id is empty or the Type is empty (the
Id is looked at first), so an aggregate with both fields non-empty validates. -/
theorem aggregate_validation (entityType entityID : String) (a : fes.Aggregate) :
    fes.NewAggregate entityType entityID = { Id := entityID, Type_ := entityType } ∧
    (fes.validateAggregate a ≠ none ↔ (a.Id = "" ∨ a.Type_ = "")) ∧
    (a.Id = "" → fes.validateAggregate a = some "aggregate does not contain id") ∧
    (a.Id ≠ "" → a.Type_ = "" →
      fes.validateAggregate a = some "aggregate does not contain type") ∧
    (a.Id ≠ "" → a.Type_ ≠ "" → fes.validateAggregate a = none) := by
  have hid : a.Id = "" → fes.validateAggregate a = some "aggregate does not contain id" := by
    intro h1
    have hb := (utf8ByteSize_eq_zero_iff a.Id).mpr h1
    simp only [fes.validateAggregate, hb, if_true]
  have htype : a.Id ≠ "" → a.Type_ = "" →
      fes.validateAggregate a = some "aggregate does not contain type" := by
    intro h1 h2
    have hb1 := mt (utf8ByteSize_eq_zero_iff a.Id).mp h1
    have hb2 := (utf8ByteSize_eq_zero_iff a.Type_).mpr h2
    simp only [fes.validateAggregate, hb1, hb2, if_true, if_false]
  have hok : a.Id ≠ "" → a.Type_ ≠ "" → fes.validateAggregate a = none := by
    intro h1 h2
    have hb1 := mt (utf8ByteSize_eq_zero_iff a.Id).mp h1
    have hb2 := mt (utf8ByteSize_eq_zero_iff a.Type_).mp h2
    simp only [fes.validateAggregate, hb1, hb2, if_false]
  refine ⟨rfl, ?_, hid, htype, hok⟩
  by_cases h1 : a.Id = ""
  · rw [hid h1]
    simp [h1]
  · by_cases h2 : a.Type_ = ""
    · rw [htype h1 h2]
      simp [h2]
    · rw [hok h1 h2]
      simp [h1, h2]

/-- The aggregate of task `t1` validates; one without id does not. -/
theorem aggregate_validation_witness :
    fes.validateAggregate (fes.NewAggregate "task" "t1") = none ∧
    fes.validateAggregate (fes.NewAggregate "task" "")
      = some "aggregate does not contain id" :=
  ⟨(aggregate_validation "task" "t1" (fes.NewAggregate "task" "t1")).2.2.2.2
      (by decide) (by decide),
   (aggregate_validation "task" "" (fes.NewAggregate "task" "")).2.2.1 rfl⟩

/-! ## InvokeAsync on a registered function -/

/-- C20: for a spec whose function is registered, on a runtime whose result map is
allocated, InvokeAsync returns the fresh id without error. The completion it runs
internally on the record just stored returns no error, so the panic that follows such an
error is never reached. The invocation is recorded under the returned id with that id as
Metadata.Id and with the given spec; its status is IN_PROGRESS when ManualExecution is set,
and otherwise SUCCEEDED with the result of the function as Output when the function
succeeds and FAILED when it returns an error. -/
theorem invokeAsync_registered (uid : String) (t1 t2 t3 : types.Timestamp)
    (mk : mock.Runtime) (sp : types.TaskRunSpec) (ref : types.FnRef) (fn : mock.Func)
    (l : List (String × Option types.TaskRun))
    (hsp : sp.FnRef = some ref) (hfn : mk.Functions.get ref.ID = some (some fn))
    (hmap : mk.AsyncResults = GoMap.alloc l) :
    (mock.Runtime.InvokeAsync uid t1 t2 t3 mk (some sp)).value = some (uid, none) ∧
    (mock.Runtime.MockComplete t3
      { mk with
        AsyncResults := GoMap.alloc (GoMap.store uid (some
          { Metadata := some { Id := uid, CreatedAt := some t1 },
            Spec := some sp,
            Status := some
              { Status := types.TaskRunStatus_Status.IN_PROGRESS,
                UpdatedAt := some t2,
                Output := none,
                Error := none } }) l) } uid).value = some none ∧
    (mk.ManualExecution = true →
      (mock.Runtime.InvokeAsync uid t1 t2 t3 mk (some sp)).state.AsyncResults.get uid
        = some (some
            { Metadata := some { Id := uid, CreatedAt := some t1 },
              Spec := some sp,
              Status := some
                { Status := types.TaskRunStatus_Status.IN_PROGRESS,
                  UpdatedAt := some t2,
                  Output := none,
                  Error := none } })) ∧
    (mk.ManualExecution = false → ∀ res, fn (some sp) = (res, none) →
      (mock.Runtime.InvokeAsync uid t1 t2 t3 mk (some sp)).state.AsyncResults.get uid
        = some (some
            { Metadata := some { Id := uid, CreatedAt := some t1 },
              Spec := some sp,
              Status := some
                { Status := types.TaskRunStatus_Status.SUCCEEDED,
                  UpdatedAt := some t3,
                  Output := res,
                  Error := none } })) ∧
    (mk.ManualExecution = false → ∀ res e, fn (some sp) = (res, some e) →
      (mock.Runtime.InvokeAsync uid t1 t2 t3 mk (some sp)).state.AsyncResults.get uid
        = some (some
            { Metadata := some { Id := uid, CreatedAt := some t1 },
              Spec := some sp,
              Status := some
                { Status := types.TaskRunStatus_Status.FAILED,
                  UpdatedAt := some t3,
                  Output := none,
                  Error := none } })) := by
  refine ⟨(mock.invokeAsync_records uid t1 t2 t3 mk sp ref fn l hsp hfn hmap).1, ?_, ?_, ?_, ?_⟩
  · rcases hres : fn (some sp) with ⟨res, err⟩
    cases err with
    | none =>
      simp only [mock.Runtime.MockComplete, GoMap.get_alloc, GoMap.find_store_same, hsp, hfn,
        hres, Outcome.value]
    | some e =>
      simp only [mock.Runtime.MockComplete, GoMap.get_alloc, GoMap.find_store_same, hsp, hfn,
        hres, Outcome.value]
  · intro hman
    simp only [mock.Runtime.InvokeAsync, hsp, hfn, hmap, GoMap.set, hman, if_true,
      Outcome.state, GoMap.get_alloc, GoMap.find_store_same]
  · intro hman res hres
    simp only [mock.Runtime.InvokeAsync, hsp, hfn, hmap, GoMap.set, hman,
      mock.Runtime.MockComplete, GoMap.get_alloc, GoMap.find_store_same, hres,
      Outcome.state, GoMap.poke_alloc, Bool.false_eq_true, if_false]
  · intro hman res e hres
    simp only [mock.Runtime.InvokeAsync, hsp, hfn, hmap, GoMap.set, hman,
      mock.Runtime.MockComplete, GoMap.get_alloc, GoMap.find_store_same, hres,
      Outcome.state, GoMap.poke_alloc, Bool.false_eq_true, if_false]

/-- InvokeAsync of the failing sample function on the sample runtime that completes at
once: the id is returned and the record under it is FAILED. -/
theorem invokeAsync_registered_witness :
    (mock.Runtime.InvokeAsync "inv-1" (sample.at_ 1) (sample.at_ 1) (sample.at_ 2)
      sample.failingRuntime (some sample.spec)).value = some ("inv-1", none) ∧
    (mock.Runtime.InvokeAsync "inv-1" (sample.at_ 1) (sample.at_ 1) (sample.at_ 2)
      sample.failingRuntime (some sample.spec)).state.AsyncResults.get "inv-1"
      = some (some
          { Metadata := some { Id := "inv-1", CreatedAt := some (sample.at_ 1) },
            Spec := some sample.spec,
            Status := some
              { Status := types.TaskRunStatus_Status.FAILED,
                UpdatedAt := some (sample.at_ 2),
                Output := none,
                Error := none } }) :=
  ⟨(invokeAsync_registered "inv-1" (sample.at_ 1) (sample.at_ 1) (sample.at_ 2)
      sample.failingRuntime sample.spec { ID := "f" } sample.failing [] rfl rfl rfl).1,
   (invokeAsync_registered "inv-1" (sample.at_ 1) (sample.at_ 1) (sample.at_ 2)
      sample.failingRuntime sample.spec { ID := "f" } sample.failing [] rfl rfl rfl).2.2.2.2
      rfl none "boom" rfl⟩

/-! ## Runtimes built by `NewRuntime` hold a record under every key -/

/-- Storing a record keeps every entry a record. -/
theorem GoMap.all_isSome_store {V : Type} (k : String) (v : V) (l : List (String × Option V))
    (h : l.all (fun e => e.2.isSome) = true) :
    (GoMap.store k (some v) l).all (fun e => e.2.isSome) = true := by
  induction l with
  | nil => simp [GoMap.store]
  | cons hd tl ih =>
    obtain ⟨k1, v1⟩ := hd
    simp only [List.all_cons, Bool.and_eq_true] at h
    by_cases hk : k1 = k
    · simp [GoMap.store, hk, h.2]
    · simp [GoMap.store, hk, h.1, ih h.2]

/-- In a list of records, what a lookup finds is a record. -/
theorem GoMap.find_isSome_of_all {V : Type} (k : String) (l : List (String × Option V))
    (e : Option V) (h : l.all (fun e => e.2.isSome) = true) (hfind : GoMap.find k l = some e) :
    e.isSome = true := by
  induction l with
  | nil => simp [GoMap.find] at hfind
  | cons hd tl ih =>
    obtain ⟨k1, v1⟩ := hd
    simp only [List.all_cons, Bool.and_eq_true] at h
    by_cases hk : k1 = k
    · simp only [GoMap.find, hk, if_true, Option.some.injEq] at hfind
      subst hfind
      exact h.1
    · simp only [GoMap.find, hk, if_false] at hfind
      exact ih h.2 hfind

/-- The new runtime holds a record under every key (it has none). -/
theorem mock.newRuntime_recordsPresent : mock.NewRuntime.recordsPresent = true := rfl

/-- On a runtime that holds a record under every key, each key of the result map leads to a
record. -/
theorem mock.record_of_key (mk : mock.Runtime) (id : String)
    (hwf : mk.recordsPresent = true) (hkey : (mk.AsyncResults.get id).isSome = true) :
    ∃ inv, mk.AsyncResults.get id = some (some inv) := by
  unfold mock.Runtime.recordsPresent at hwf
  cases hm : mk.AsyncResults with
  | nil => simp [hm] at hwf
  | alloc l =>
    rw [hm] at hwf hkey
    simp only [GoMap.get] at hkey ⊢
    cases hf : GoMap.find id l with
    | none => simp [hf] at hkey
    | some e =>
      have hsome := GoMap.find_isSome_of_all id l e hwf hf
      cases e with
      | none => simp at hsome
      | some inv => exact ⟨inv, rfl⟩

/-- A write of a record through a pointer keeps every entry a record. -/
theorem mock.recordsPresent_poke (mk : mock.Runtime) (k : String) (rec : types.TaskRun)
    (hwf : mk.recordsPresent = true) :
    mock.Runtime.recordsPresent
      { mk with AsyncResults := mk.AsyncResults.poke k (some rec) } = true := by
  unfold mock.Runtime.recordsPresent at hwf ⊢
  cases hm : mk.AsyncResults with
  | nil => simp [hm] at hwf
  | alloc l =>
    rw [hm] at hwf
    simp only [GoMap.poke]
    exact GoMap.all_isSome_store k rec l hwf

/-- MockComplete keeps a record under every key. -/
theorem mock.mockComplete_recordsPresent (now : types.Timestamp) (mk : mock.Runtime)
    (k : String) (hwf : mk.recordsPresent = true) :
    (mock.Runtime.MockComplete now mk k).state.recordsPresent = true := by
  unfold mock.Runtime.MockComplete
  split
  · exact hwf
  · exact hwf
  · split
    · exact hwf
    · split
      · exact hwf
      · split
        · exact hwf
        · exact hwf
        · split
          · exact mock.recordsPresent_poke mk k _ hwf
          · exact mock.recordsPresent_poke mk k _ hwf

/-- Cancel keeps a record under every key. -/
theorem mock.cancel_recordsPresent (now : types.Timestamp) (mk : mock.Runtime)
    (k : String) (hwf : mk.recordsPresent = true) :
    (mock.Runtime.Cancel now mk k).state.recordsPresent = true := by
  unfold mock.Runtime.Cancel
  split
  · exact hwf
  · exact hwf
  · exact mock.recordsPresent_poke mk k _ hwf

/-- InvokeAsync keeps a record under every key. -/
theorem mock.invokeAsync_recordsPresent (uid : String) (t1 t2 t3 : types.Timestamp)
    (mk : mock.Runtime) (spec : Option types.TaskRunSpec) (hwf : mk.recordsPresent = true) :
    (mock.Runtime.InvokeAsync uid t1 t2 t3 mk spec).state.recordsPresent = true := by
  have hstore : ∀ (rec : types.TaskRun) (results : GoMap (Option types.TaskRun))
      (mk1 : mock.Runtime), mk.AsyncResults.set uid (some rec) = some results →
      mk1.AsyncResults = results → mk1.recordsPresent = true := by
    intro rec results mk1 hset hres
    unfold mock.Runtime.recordsPresent at hwf ⊢
    cases hm : mk.AsyncResults with
    | nil => simp [hm] at hwf
    | alloc l =>
      rw [hm] at hwf hset
      simp only [GoMap.set, Option.some.injEq] at hset
      rw [hres, ← hset]
      exact GoMap.all_isSome_store uid rec l hwf
  unfold mock.Runtime.InvokeAsync
  split
  · exact hwf
  · split
    · exact hwf
    · split
      · exact hwf
      · split
        · exact hwf
        · rename_i results hset
          split
          · exact hstore _ results _ hset rfl
          · have h2 := mock.mockComplete_recordsPresent t3
              { mk with AsyncResults := results } uid (hstore _ results _ hset rfl)
            split
            · rename_i hmc
              rw [hmc] at h2
              exact h2
            · rename_i hmc
              rw [hmc] at h2
              exact h2
            · rename_i hmc
              rw [hmc] at h2
              exact h2

/-- Every operation keeps a record under every key. -/
theorem mock.op_recordsPresent (mk : mock.Runtime) (op : mock.Op)
    (hwf : mk.recordsPresent = true) : (op.run mk).recordsPresent = true := by
  cases op with
  | InvokeAsync uid t1 t2 t3 spec => exact mock.invokeAsync_recordsPresent uid t1 t2 t3 mk spec hwf
  | MockComplete now k => exact mock.mockComplete_recordsPresent now mk k hwf
  | Invoke uid t1 t2 t3 t4 spec =>
    have h1 := mock.invokeAsync_recordsPresent uid t1 t2 t3 mk spec hwf
    simp only [mock.Op.run, mock.Runtime.Invoke]
    cases hia : mock.Runtime.InvokeAsync uid t1 t2 t3 mk spec with
    | panicked s =>
      rw [hia] at h1
      exact h1
    | returned s v =>
      rw [hia] at h1
      obtain ⟨invocationID, err⟩ := v
      cases err with
      | some e => exact h1
      | none =>
        have h2 := mock.mockComplete_recordsPresent t4 s invocationID h1
        simp only
        cases hmc : mock.Runtime.MockComplete t4 s invocationID with
        | panicked s2 =>
          rw [hmc] at h2
          exact h2
        | returned s2 v2 =>
          rw [hmc] at h2
          cases v2 with
          | some e => exact h2
          | none =>
            simp only [mock.status_state]
            exact h2
  | Cancel now k => exact mock.cancel_recordsPresent now mk k hwf
  | Status k =>
    simp only [mock.Op.run, mock.status_state]
    exact hwf
  | Notify taskID fn expectedAt => exact hwf

/-! ## Unknown and known invocation ids -/

/-- C11: for an id that is not a key of AsyncResults, Status, Cancel and MockComplete each
return the unknown-invocation error, Status returns no status, and the runtime is left as it
was. Conversely, for an id that is a key of AsyncResults holding a record, Status returns
the status of the record without error and Cancel returns without error; on a runtime that
holds a record under every key, as every runtime built by NewRuntime and the operations
does, that is so for every key. -/
theorem unknown_invocation_iff_not_recorded (now : types.Timestamp) (mk : mock.Runtime)
    (id : String) :
    (mk.AsyncResults.get id = none →
      mock.Runtime.Status mk id
        = Outcome.returned mk (none, some (mock.unknownInvocation id)) ∧
      mock.Runtime.Cancel now mk id
        = Outcome.returned mk (some (mock.unknownInvocation id)) ∧
      mock.Runtime.MockComplete now mk id
        = Outcome.returned mk (some (mock.unknownInvocation id))) ∧
    (∀ inv : types.TaskRun, mk.AsyncResults.get id = some (some inv) →
      mock.Runtime.Status mk id = Outcome.returned mk (inv.Status, none) ∧
      (mock.Runtime.Cancel now mk id).value = some none) ∧
    (mk.recordsPresent = true → (mk.AsyncResults.get id).isSome = true →
      (mock.Runtime.Status mk id).value.map Prod.snd = some none ∧
      (mock.Runtime.Cancel now mk id).value = some none) := by
  have hrec : ∀ inv : types.TaskRun, mk.AsyncResults.get id = some (some inv) →
      mock.Runtime.Status mk id = Outcome.returned mk (inv.Status, none) ∧
      (mock.Runtime.Cancel now mk id).value = some none := by
    intro inv h
    simp only [mock.Runtime.Status, mock.Runtime.Cancel, h, Outcome.value, and_self]
  refine ⟨?_, hrec, ?_⟩
  · intro h
    simp only [mock.Runtime.Status, mock.Runtime.Cancel, mock.Runtime.MockComplete, h,
      and_self]
  · intro hwf hkey
    obtain ⟨inv, hinv⟩ := mock.record_of_key mk id hwf hkey
    obtain ⟨h1, h2⟩ := hrec inv hinv
    exact ⟨by rw [h1]; rfl, h2⟩

/-- On a new runtime the id `inv-9` is unknown to Status, Cancel and MockComplete; on the
sample runtime holding `inv-1`, Status and Cancel succeed for it. -/
theorem unknown_invocation_iff_not_recorded_witness :
    (mock.Runtime.Status mock.NewRuntime "inv-9"
        = Outcome.returned mock.NewRuntime
            (none, some "could not invoke unknown invocation 'inv-9'") ∧
      mock.Runtime.Cancel (sample.at_ 5) mock.NewRuntime "inv-9"
        = Outcome.returned mock.NewRuntime
            (some "could not invoke unknown invocation 'inv-9'") ∧
      mock.Runtime.MockComplete (sample.at_ 5) mock.NewRuntime "inv-9"
        = Outcome.returned mock.NewRuntime
            (some "could not invoke unknown invocation 'inv-9'")) ∧
    (mock.Runtime.Status sample.busyRuntime "inv-1"
        = Outcome.returned sample.busyRuntime (sample.pending.Status, none) ∧
      (mock.Runtime.Cancel (sample.at_ 5) sample.busyRuntime "inv-1").value = some none) ∧
    ((mock.Runtime.Status sample.busyRuntime "inv-1").value.map Prod.snd = some none ∧
      (mock.Runtime.Cancel (sample.at_ 5) sample.busyRuntime "inv-1").value = some none) :=
  ⟨(unknown_invocation_iff_not_recorded (sample.at_ 5) mock.NewRuntime "inv-9").1 rfl,
   (unknown_invocation_iff_not_recorded (sample.at_ 5) sample.busyRuntime "inv-1").2.1
      sample.pending rfl,
   (unknown_invocation_iff_not_recorded (sample.at_ 5) sample.busyRuntime "inv-1").2.2
      rfl rfl⟩
